import Mathlib

set_option maxRecDepth 20000
set_option maxHeartbeats 1000000

/-!
Verification development for the Blender/Ollama add-on
(src/blender_ollama_addon.py).  The add-on's pure string-processing
core (the regex-based code-repair passes, code extraction, the
streaming accumulation loop) is embedded as executable Lean functions
over `List Char`; the effectful parts (HTTP requests, `ast.parse`,
`exec`) are parameters or small environment types, so that the
operators' control flow can be stated and proved.

Python's `re` module is modelled by a small backtracking regex engine
covering exactly the constructs the add-on uses: character classes,
literals, greedy and lazy `*` / `+` / `?` over character classes,
alternation and capturing groups.  `\w`, `\s`, `\d` are modelled at
their ASCII meaning (all strings the add-on manipulates are ASCII).
-/

/-! ## Python-style string primitives over `List Char` -/

def isPySpace (c : Char) : Bool :=
  c = ' ' || c = '\t' || c = '\n' || c = '\r' || c = '\x0b' || c = '\x0c'

/-- Python `str.lstrip()`. -/
def lstripL (cs : List Char) : List Char := cs.dropWhile isPySpace

/-- Python `str.rstrip()`. -/
def rstripL (cs : List Char) : List Char := (cs.reverse.dropWhile isPySpace).reverse

/-- Python `str.strip()`. -/
def pstripL (cs : List Char) : List Char := rstripL (lstripL cs)

/-- Python `str.lower()` (ASCII). -/
def lowerL (cs : List Char) : List Char := cs.map Char.toLower

/-- Boolean list-prefix test. -/
def isPrefB : List Char → List Char → Bool
  | [], _ => true
  | _ :: _, [] => false
  | a :: as, b :: bs => a = b && isPrefB as bs

/-- Python `pat in hay` (substring containment). -/
def containsSub (hay pat : List Char) : Bool :=
  isPrefB pat hay ||
    match hay with
    | [] => false
    | _ :: t => containsSub t pat

/-- `pat in hay` on `String`s. -/
def hasSub (hay pat : String) : Bool := containsSub hay.toList pat.toList

/-- Python `str.split('\n')`, with an accumulator for the current line. -/
def splitNlAux (acc : List Char) : List Char → List (List Char)
  | [] => [acc.reverse]
  | c :: cs => if c = '\n' then acc.reverse :: splitNlAux [] cs else splitNlAux (c :: acc) cs

def splitNl (cs : List Char) : List (List Char) := splitNlAux [] cs

/-- Python `'\n'.join(...)`. -/
def joinNl : List (List Char) → List Char
  | [] => []
  | [l] => l
  | l :: rest => l ++ '\n' :: joinNl rest

/-- Occurrences of a character. -/
def countC (cs : List Char) (c : Char) : Nat := cs.count c

/-! ## A small regex engine (the Python `re` subset the add-on uses) -/

/-- One item of a character class: a single character or a range. -/
inductive CI where
  | ch : Char → CI
  | rng : Char → Char → CI

def CI.test (c : Char) : CI → Bool
  | .ch a => c = a
  | .rng lo hi => decide (lo ≤ c) && decide (c ≤ hi)

/-- A character class, possibly negated. -/
structure Cls where
  neg : Bool
  items : List CI

def Cls.test (cl : Cls) (c : Char) : Bool :=
  if cl.neg then !(cl.items.any (CI.test c)) else cl.items.any (CI.test c)

/-- Regex ASTs.  Every `*`/`+` in the add-on's patterns repeats a single
character class, so `star` is indexed by a class; `+` is desugared as
class-then-star.  The `Bool` on `opt`/`star` is greediness. -/
inductive RE where
  | eps
  | cls : Cls → RE
  | seq : RE → RE → RE
  | alt : RE → RE → RE
  | opt : Bool → RE → RE
  | star : Bool → Cls → RE
  | grp : Nat → RE → RE

/-- Captured groups: group index paired with the matched characters;
the most recent capture of a group comes first. -/
abbrev Caps := List (Nat × List Char)

def capGet (cp : Caps) (n : Nat) : List Char :=
  match cp.find? (fun p => p.1 == n) with
  | some p => p.2
  | none => []

/-- Length of the maximal run of characters satisfying a class. -/
def runLen (cl : Cls) : List Char → Nat
  | [] => 0
  | c :: cs => if cl.test c then runLen cl cs + 1 else 0

/-- Greedy star: try dropping `j` characters for `j = n, n-1, …, 0`. -/
def tryDown (k : List Char → Caps → Option α) (cs : List Char) (cp : Caps) : Nat → Option α
  | 0 => k cs cp
  | j + 1 =>
    match k (cs.drop (j + 1)) cp with
    | some r => some r
    | none => tryDown k cs cp j

/-- Lazy star: try dropping `j, j+1, …, j+r` characters in that order. -/
def tryUp (k : List Char → Caps → Option α) (cs : List Char) (cp : Caps) (j : Nat) : Nat → Option α
  | 0 => k (cs.drop j) cp
  | r + 1 =>
    match k (cs.drop j) cp with
    | some res => some res
    | none => tryUp k cs cp (j + 1) r

/-- The backtracking matcher, in continuation-passing style.  Branch
order reproduces Python's leftmost/greedy/lazy preferences. -/
def matchRE (re : RE) (cs : List Char) (cp : Caps)
    (k : List Char → Caps → Option α) : Option α :=
  match re with
  | .eps => k cs cp
  | .cls cl =>
    match cs with
    | [] => none
    | c :: rest => if cl.test c then k rest cp else none
  | .seq a b => matchRE a cs cp (fun cs' cp' => matchRE b cs' cp' k)
  | .alt a b =>
    match matchRE a cs cp k with
    | some r => some r
    | none => matchRE b cs cp k
  | .opt g a =>
    if g then
      match matchRE a cs cp k with
      | some r => some r
      | none => k cs cp
    else
      match k cs cp with
      | some r => some r
      | none => matchRE a cs cp k
  | .star g cl =>
    if g then tryDown k cs cp (runLen cl cs) else tryUp k cs cp 0 (runLen cl cs)
  | .grp n a =>
    matchRE a cs cp (fun cs' cp' => k cs' ((n, cs.take (cs.length - cs'.length)) :: cp'))

/-- Match attempt anchored at the current position: consumed length and captures. -/
def mAt (re : RE) (cs : List Char) : Option (Nat × Caps) :=
  match matchRE re cs [] (fun rest cp => some (rest, cp)) with
  | some (rest, cp) => some (cs.length - rest.length, cp)
  | none => none

/-- Replacement templates: literal pieces and group references. -/
inductive TplI where
  | s : List Char → TplI
  | g : Nat → TplI

abbrev Tpl := List TplI

def expandTpl (cp : Caps) : Tpl → List Char
  | [] => []
  | .s str :: t => str ++ expandTpl cp t
  | .g n :: t => capGet cp n ++ expandTpl cp t

/-- The scanning loop of `re.sub`, with fuel (structurally recursive so
that it evaluates by kernel reduction; one unit of fuel is spent per
scan position, and every step shortens the input, so
`length + 1` fuel always suffices). -/
def subFreeF (re : RE) (tpl : Tpl) : Nat → List Char → List Char
  | 0, _ => []
  | _ + 1, [] =>
    match mAt re [] with
    | some (_, cp) => expandTpl cp tpl
    | none => []
  | fuel + 1, c :: cs =>
    match mAt re (c :: cs) with
    | none => c :: subFreeF re tpl fuel cs
    | some (0, cp) => expandTpl cp tpl ++ c :: subFreeF re tpl fuel cs
    | some (n + 1, cp) => expandTpl cp tpl ++ subFreeF re tpl fuel (cs.drop n)

/-- `re.sub(pattern, repl, s)` for an unanchored pattern: leftmost,
non-overlapping matches, each replaced by the expanded template.  An
empty match inserts the replacement and copies one character, as
Python does. -/
def subFree (re : RE) (tpl : Tpl) (cs : List Char) : List Char :=
  subFreeF re tpl (cs.length + 1) cs

/-- `re.sub` for a pattern anchored with `^` (no MULTILINE) and an
empty replacement: at most one match, at position 0. -/
def subStart (re : RE) (cs : List Char) : List Char :=
  match mAt re cs with
  | some (n, _) => cs.drop n
  | none => cs

/-- `re.sub(..., count=1, flags=re.MULTILINE)` for a `^…`-anchored
pattern with an empty replacement: the first match at a line start is
deleted, the rest is copied. -/
def subLine1 (re : RE) (atLS : Bool) : List Char → List Char
  | [] => []
  | c :: cs =>
    if atLS then
      match mAt re (c :: cs) with
      | some (n, _) => (c :: cs).drop n
      | none => c :: subLine1 re (c = '\n') cs
    else c :: subLine1 re (c = '\n') cs

/-- `re.search`: captures of the leftmost match, if any. -/
def searchCaps (re : RE) : List Char → Option Caps
  | [] => (mAt re []).map Prod.snd
  | c :: cs =>
    match mAt re (c :: cs) with
    | some (_, cp) => some cp
    | none => searchCaps re cs

/-- `re.match`: a match anchored at the start. -/
def matchStart (re : RE) (cs : List Char) : Option Caps :=
  (mAt re cs).map Prod.snd

/-! ### Pattern-building helpers -/

def rlit (c : Char) : RE := .cls ⟨false, [.ch c]⟩

def rstr (s : String) : RE :=
  s.toList.foldr (fun c r => .seq (rlit c) r) .eps

/-- Case-insensitive literal (for patterns compiled with `re.IGNORECASE`). -/
def rstrCI (s : String) : RE :=
  s.toList.foldr (fun c r => .seq (.cls ⟨false, [.ch c.toLower, .ch c.toUpper]⟩) r) .eps

def clsOf (s : String) : Cls := ⟨false, s.toList.map CI.ch⟩

def nclsOf (s : String) : Cls := ⟨true, s.toList.map CI.ch⟩

def wordCls : Cls := ⟨false, [.rng 'a' 'z', .rng 'A' 'Z', .rng '0' '9', .ch '_']⟩

def digitCls : Cls := ⟨false, [.rng '0' '9']⟩

def spaceCls : Cls := clsOf " \t\n\r\x0b\x0c"

/-- `.` under `re.DOTALL`. -/
def anyCls : Cls := ⟨true, []⟩

def rseq (l : List RE) : RE := l.foldr .seq .eps

def ralts : List RE → RE
  | [] => .cls ⟨false, []⟩
  | [r] => r
  | r :: rest => .alt r (ralts rest)

/-- `x+` desugared as `x x*` (greedy), as Python's backtracking does. -/
def rplus (cl : Cls) : RE := .seq (.cls cl) (.star true cl)

/-- `\s*` -/
def ws : RE := .star true spaceCls

/-- `\s+` -/
def ws1 : RE := rplus spaceCls

/-- `\w+` -/
def wplus : RE := rplus wordCls

/-- `\d+\.?\d*` (the number shape used by the colour-fix patterns). -/
def numRE : RE := rseq [rplus digitCls, .opt true (rlit '.'), .star true digitCls]

/-- `["\']` -/
def quoteCls : Cls := clsOf "\"'"

/-! ## The add-on's regex patterns

Each definition transcribes one pattern from src/blender_ollama_addon.py,
with Python's capture-group numbering. -/

/-- `(\w+)\.add_child\s*\(\s*(\w+)\s*\)` -/
def addChildPat : RE :=
  rseq [.grp 1 wplus, rstr ".add_child", ws, rlit '(', ws, .grp 2 wplus, ws, rlit ')']

/-- `(\w+)\.set_parent\s*\(\s*(\w+)\s*\)` -/
def setParentPat : RE :=
  rseq [.grp 1 wplus, rstr ".set_parent", ws, rlit '(', ws, .grp 2 wplus, ws, rlit ')']

/-- `bpy\.data\.world[^\n]*\n?` -/
def worldDataPat : RE :=
  rseq [rstr "bpy.data.world", .star true (nclsOf "\n"), .opt true (rlit '\n')]

/-- `world\.use_nodes[^\n]*\n?` -/
def worldUseNodesPat : RE :=
  rseq [rstr "world.use_nodes", .star true (nclsOf "\n"), .opt true (rlit '\n')]

/-- `world\.node_tree[^\n]*\n?` -/
def worldNodeTreePat : RE :=
  rseq [rstr "world.node_tree", .star true (nclsOf "\n"), .opt true (rlit '\n')]

/-- `material\s*=\s*bpy\.data\.materials\.get\([^)]+\)` -/
def matGetPat : RE :=
  rseq [rstr "material", ws, rlit '=', ws, rstr "bpy.data.materials.get(",
    rplus (nclsOf ")"), rlit ')']

/-- `inputs\[["\']Base\s+C[^"\']*["\'][^\(]*\((\d+\.?\d*\s*,\s*\d+\.?\d*\s*,\s*\d+\.?\d*(?:\s*,\s*\d+\.?\d*)?)\)` -/
def baseColorBrokenPat : RE :=
  rseq [rstr "inputs[", .cls quoteCls, rstr "Base", ws1, rlit 'C',
    .star true (nclsOf "\"'"), .cls quoteCls, .star true (nclsOf "("), rlit '(',
    .grp 1 (rseq [numRE, ws, rlit ',', ws, numRE, ws, rlit ',', ws, numRE,
      .opt true (rseq [ws, rlit ',', ws, numRE])]),
    rlit ')']

/-- `inputs\[["\'][^"\']+["\']]\s*` (the shared first group of the two
`inputs[...]` colour patterns). -/
def inputsGrpBody : RE :=
  rseq [rstr "inputs[", .cls quoteCls, rplus (nclsOf "\"'"), .cls quoteCls,
    rlit ']', ws]

/-- `(inputs\[["\'][^"\']+["\']]\s*)\.\s*default_value\s*=\s*\(\s*(\d+\.?\d*)\s*,\s*(\d+\.?\d*)\s*,\s*(\d+\.?\d*)\s*\)` -/
def rgbToRgbaPat : RE :=
  rseq [.grp 1 inputsGrpBody, rlit '.', ws, rstr "default_value", ws, rlit '=', ws,
    rlit '(', ws, .grp 2 numRE, ws, rlit ',', ws, .grp 3 numRE, ws, rlit ',', ws,
    .grp 4 numRE, ws, rlit ')']

/-- `\.default_value\s*=\s*\(\s*(\d+\.?\d*)\s*,\s*(\d+\.?\d*)\s*,\s*(\d+\.?\d*)\s*\)` -/
def defaultValuePat : RE :=
  rseq [rlit '.', rstr "default_value", ws, rlit '=', ws, rlit '(', ws,
    .grp 1 numRE, ws, rlit ',', ws, .grp 2 numRE, ws, rlit ',', ws,
    .grp 3 numRE, ws, rlit ')']

/-- `(inputs\[["\'][^"\']+["\']]\s*)\.\s*\(\s*(\d+\.?\d*)\s*,\s*(\d+\.?\d*)\s*,\s*(\d+\.?\d*)\s*(?:,\s*\d+\.?\d*)?\s*\)` -/
def inputsCallPat : RE :=
  rseq [.grp 1 inputsGrpBody, rlit '.', ws, rlit '(', ws,
    .grp 2 numRE, ws, rlit ',', ws, .grp 3 numRE, ws, rlit ',', ws, .grp 4 numRE, ws,
    .opt true (rseq [rlit ',', ws, numRE]), ws, rlit ')']

/-- `(bsdf|mat)\.inputs\[["\']Base\s*C[^\]]*\]\s*\((\d+\.?\d*\s*,\s*\d+\.?\d*\s*,\s*\d+\.?\d*\s*,\s*\d+\.?\d*)\)` -/
def bsdfMatPat : RE :=
  rseq [.grp 1 (.alt (rstr "bsdf") (rstr "mat")), rstr ".inputs[", .cls quoteCls,
    rstr "Base", ws, rlit 'C', .star true (nclsOf "]"), rlit ']', ws, rlit '(',
    .grp 2 (rseq [numRE, ws, rlit ',', ws, numRE, ws, rlit ',', ws, numRE, ws,
      rlit ',', ws, numRE]),
    rlit ')']

/-- `bpy\.ops\.object\.select_all\([^)]*\)[^\n]*\n` -/
def selectAllPat : RE :=
  rseq [rstr "bpy.ops.object.select_all(", .star true (nclsOf ")"), rlit ')',
    .star true (nclsOf "\n"), rlit '\n']

/-- `bpy\.ops\.object\.delete\([^)]*\)[^\n]*\n` -/
def deletePat : RE :=
  rseq [rstr "bpy.ops.object.delete(", .star true (nclsOf ")"), rlit ')',
    .star true (nclsOf "\n"), rlit '\n']

/-- `^import bpy\s*\n` (MULTILINE, count=1) -/
def importBpyLinePat : RE := rseq [rstr "import bpy", ws, rlit '\n']

/-- `^import math\s*\n` (MULTILINE, count=1; from `re.escape('import math')`) -/
def importMathLinePat : RE := rseq [rstr "import math", ws, rlit '\n']

/-- `^from mathutils import Vector\s*\n` (MULTILINE, count=1) -/
def importVectorLinePat : RE := rseq [rstr "from mathutils import Vector", ws, rlit '\n']

/-- `bpy\.context\.scene\.objects\.link\s*\(\s*([^)]+)\s*\)` -/
def oldLinkPat : RE :=
  rseq [rstr "bpy.context.scene.objects.link", ws, rlit '(', ws,
    .grp 1 (rplus (nclsOf ")")), ws, rlit ')']

/-- `(?:bpy\.context\.)?(?:scene|collection)\.objects\.link\((\w+)\)` -/
def dupLinkPat : RE :=
  rseq [.opt true (rstr "bpy.context."), .alt (rstr "scene") (rstr "collection"),
    rstr ".objects.link(", .grp 1 wplus, rlit ')']

/-- `type\s*=\s*['\"]JOINT['\"]` -/
def enumJointPat : RE :=
  rseq [rstr "type", ws, rlit '=', ws, .cls quoteCls, rstr "JOINT", .cls quoteCls]

/-- `,\s*type\s*=\s*['\"]JOINT['\"]` -/
def enumCommaJointPat : RE :=
  rseq [rlit ',', ws, rstr "type", ws, rlit '=', ws, .cls quoteCls, rstr "JOINT", .cls quoteCls]

/-- `type\s*=\s*['\"]BONE['\"]` -/
def enumBonePat : RE :=
  rseq [rstr "type", ws, rlit '=', ws, .cls quoteCls, rstr "BONE", .cls quoteCls]

/-- `connect\s*=\s*['\"]AUTO['\"]` -/
def enumConnectPat : RE :=
  rseq [rstr "connect", ws, rlit '=', ws, .cls quoteCls, rstr "AUTO", .cls quoteCls]

/-- `type\s*=\s*['\"]REVOLUTE['\"]` -/
def enumRevolutePat : RE :=
  rseq [rstr "type", ws, rlit '=', ws, .cls quoteCls, rstr "REVOLUTE", .cls quoteCls]

/-- `type\s*=\s*['\"]HINGE['\"]` -/
def enumHingePat : RE :=
  rseq [rstr "type", ws, rlit '=', ws, .cls quoteCls, rstr "HINGE", .cls quoteCls]

/-- `bpy\.ops\.rigging\.add\([^)]*\)` and the other four fake operators. -/
def fakeOpPat (opname : String) : RE :=
  rseq [rstr opname, rlit '(', .star true (nclsOf ")"), rlit ')']

/-- `,\s*,` -/
def doubleCommaPat : RE := rseq [rlit ',', ws, rlit ',']

/-- `\(\s*,` -/
def parenCommaPat : RE := rseq [rlit '(', ws, rlit ',']

/-- `,\s*\)` -/
def commaParenPat : RE := rseq [rlit ',', ws, rlit ')']

/-- `(\w+)\s*=\s*bpy\.context\.(?:active_object|object)` (used with `re.match`) -/
def opsAssignPat : RE :=
  rseq [.grp 1 wplus, ws, rlit '=', ws, rstr "bpy.context.",
    .alt (rstr "active_object") (rstr "object")]

/-- `\.objects\.link\((\w+)\)` -/
def linkVarPat : RE := rseq [rstr ".objects.link(", .grp 1 wplus, rlit ')']

/-- `(\w+)\s*=\s*bpy\.data\.objects\.new\s*\(` -/
def newObjPat : RE :=
  rseq [.grp 1 wplus, ws, rlit '=', ws, rstr "bpy.data.objects.new", ws, rlit '(']

/-- `(bpy\.ops\.object\.armature_add\([^)]*\))` -/
def armaturePat : RE :=
  .grp 1 (rseq [rstr "bpy.ops.object.armature_add(", .star true (nclsOf ")"), rlit ')'])

/-- `.*?` under `re.DOTALL` (lazy). -/
def lazyAny : RE := .star false anyCls

/-- `^.*?(?:here\s+is|below\s+is|here's).*?(?:script|code).*?:?\s*`
(IGNORECASE, DOTALL; anchored at the start of the string). -/
def preamble1Pat : RE :=
  rseq [lazyAny,
    ralts [rseq [rstrCI "here", ws1, rstrCI "is"],
           rseq [rstrCI "below", ws1, rstrCI "is"],
           rstrCI "here's"],
    lazyAny, ralts [rstrCI "script", rstrCI "code"],
    lazyAny, .opt true (rlit ':'), ws]

/-- `^.*?(?:certainly|sure|ok|alright).*?:?\s*` (IGNORECASE, DOTALL). -/
def preamble2Pat : RE :=
  rseq [lazyAny,
    ralts [rstrCI "certainly", rstrCI "sure", rstrCI "ok", rstrCI "alright"],
    lazyAny, .opt true (rlit ':'), ws]

/-- `^.*?(?:i'll|let me).*?(?:create|generate|write).*?:?\s*` (IGNORECASE, DOTALL). -/
def preamble3Pat : RE :=
  rseq [lazyAny, ralts [rstrCI "i'll", rstrCI "let me"],
    lazyAny, ralts [rstrCI "create", rstrCI "generate", rstrCI "write"],
    lazyAny, .opt true (rlit ':'), ws]

/-- ```` ```python\s*(.*?)\s*``` ```` (DOTALL). -/
def codeBlockPyPat : RE :=
  rseq [rstr "```python", ws, .grp 1 lazyAny, ws, rstr "```"]

/-- ```` ```\s*(.*?)\s*``` ```` (DOTALL). -/
def codeBlockAnyPat : RE :=
  rseq [rstr "```", ws, .grp 1 lazyAny, ws, rstr "```"]

/-- `(import bpy.*)` (DOTALL, IGNORECASE). -/
def importBpyAllPat : RE :=
  .grp 1 (rseq [rstrCI "import bpy", .star true anyCls])

/-- `\n\s*\n\s*\n+` -/
def tripleNlPat : RE :=
  rseq [rlit '\n', ws, rlit '\n', ws, rplus (clsOf "\n")]

/-! ## The repair passes (`OLLAMA_OT_execute` methods) -/

/-- `fix_parent_child_errors` (lines 339–355): rewrite `a.add_child(b)`
to `b.parent = a` and `a.set_parent(b)` to `a.parent = b`. -/
def fix_parent_child_errors (code : String) : String :=
  let cs := code.toList
  let cs := subFree addChildPat [.g 2, .s ".parent = ".toList, .g 1] cs
  let cs := subFree setParentPat [.g 1, .s ".parent = ".toList, .g 2] cs
  ⟨cs⟩

/-- `fix_material_errors` (lines 357–412): drop hallucinated
`bpy.data.world` lines, rewrite `materials.get`, and normalise the
various broken colour assignments (RGB → RGBA and call-style inputs). -/
def fix_material_errors (code : String) : String :=
  let cs := code.toList
  let cs := subFree worldDataPat [] cs
  let cs := subFree worldUseNodesPat [] cs
  let cs := subFree worldNodeTreePat [] cs
  let cs := subFree matGetPat
    [.s "material = bpy.data.materials.new(name=\"Material\")".toList] cs
  let cs := subFree baseColorBrokenPat
    [.s "inputs[\"Base Color\"].default_value = (".toList, .g 1, .s ")".toList] cs
  let cs := subFree rgbToRgbaPat
    [.g 1, .s ".default_value = (".toList, .g 2, .s ", ".toList, .g 3,
     .s ", ".toList, .g 4, .s ", 1.0)".toList] cs
  let cs := subFree defaultValuePat
    [.s ".default_value = (".toList, .g 1, .s ", ".toList, .g 2, .s ", ".toList,
     .g 3, .s ", 1.0)".toList] cs
  let cs := subFree inputsCallPat
    [.g 1, .s ".default_value = (".toList, .g 2, .s ", ".toList, .g 3,
     .s ", ".toList, .g 4, .s ", 1.0)".toList] cs
  let cs := subFree bsdfMatPat
    [.g 1, .s ".inputs[\"Base Color\"].default_value = (".toList, .g 2,
     .s ")".toList] cs
  ⟨cs⟩

/-! ## `fix_blender_api` (lines 414–620) -/

/-- The `force_clear` preamble (source lines 418–424). -/
def fcBase : String :=
  "import bpy\n\n# Context-safe scene clearing (works from any context)\nfor obj in list(bpy.data.objects):\n    bpy.data.objects.remove(obj, do_unlink=True)\n\n"

/-- The duplicate-`objects.link` removal pass (lines 461–478):
`seen` holds the variables already linked. -/
def dedupLinks (seen : List (List Char)) : List (List Char) → List (List Char)
  | [] => []
  | line :: rest =>
    match searchCaps dupLinkPat line with
    | some cp =>
      let v := capGet cp 1
      if v ∈ seen then dedupLinks seen rest
      else line :: dedupLinks (v :: seen) rest
    | none => line :: dedupLinks seen rest

/-- The keep condition of the empty-line filter (line 515):
`line.strip() or not line`. -/
def keepLine (l : List Char) : Bool := !(pstripL l).isEmpty || l.isEmpty

/-- State of the auto-link pass (lines 518–592).  The source also
stores line numbers as dictionary values; only the keys are ever read,
so the state keeps the variable names. -/
structure ALSt where
  linked : List (List Char)
  fromOps : List (List Char)
  inEdit : Bool

/-- The variable names the pass refuses to treat as objects (lines 551, 579). -/
def alForbidden : List (List Char) :=
  ["linked_objects".toList, "objects_from_ops".toList, "seen_links".toList]

/-- `len(line) - len(line.lstrip())`. -/
def indentOf (line : List Char) : Nat := line.length - (lstripL line).length

/-- The auto-link pass over the split lines (lines 518–592): tracks edit
mode and `bpy.ops`-created objects, drops illegitimate or duplicate
link lines, and auto-links objects created with `bpy.data.objects.new`. -/
def autoLinkStep : ALSt → List (List Char) → List (List Char)
  | _, [] => []
  | st, line :: rest =>
    let st :=
      if containsSub line "mode_set".toList && containsSub line "EDIT".toList then
        { st with inEdit := true }
      else if containsSub line "mode_set".toList && containsSub line "OBJECT".toList then
        { st with inEdit := false }
      else st
    let st :=
      if containsSub line "bpy.ops.mesh.primitive_".toList
          || containsSub line "bpy.ops.object.".toList then
        match rest with
        | [] => st
        | nl :: _ =>
          match matchStart opsAssignPat (pstripL nl) with
          | some cp => { st with fromOps := capGet cp 1 :: st.fromOps }
          | none => st
      else st
    let dropRes : Option ALSt :=
      if containsSub line "collection.objects.link(".toList
          || containsSub line "scene.objects.link(".toList then
        match searchCaps linkVarPat line with
        | some cp =>
          let v := capGet cp 1
          if v ∈ alForbidden then none
          else if v ∈ st.fromOps then none
          else if v ∈ st.linked then none
          else some { st with linked := v :: st.linked }
        | none => some st
      else some st
    match dropRes with
    | none => autoLinkStep st rest
    | some st =>
      line ::
        (if st.inEdit then autoLinkStep st rest
         else
           match searchCaps newObjPat line with
           | some cp =>
             let v := capGet cp 1
             if v ∈ alForbidden then autoLinkStep st rest
             else if v ∉ st.linked && v ∉ st.fromOps then
               let nl := rest.headD []
               if ¬ containsSub nl "collection.objects.link".toList
                   && ¬ containsSub nl "scene.objects.link".toList then
                 (List.replicate (indentOf line) ' '
                     ++ "bpy.context.collection.objects.link(".toList ++ v ++ [')'])
                   :: autoLinkStep { st with linked := v :: st.linked } rest
               else autoLinkStep st rest
             else autoLinkStep st rest
           | none => autoLinkStep st rest)

/-- The `mode_set` try/except wrapping pass (lines 603–615). -/
def modeWrapLines : List (List Char) → List (List Char)
  | [] => []
  | line :: rest =>
    if containsSub line "mode_set".toList && ¬ containsSub line "try:".toList then
      let ind := indentOf line
      (List.replicate ind ' ' ++ "try:".toList)
        :: (List.replicate (ind + 4) ' ' ++ pstripL line)
        :: (List.replicate ind ' ' ++ "except RuntimeError:".toList)
        :: (List.replicate (ind + 4) ' ' ++ "pass  # Context not available".toList)
        :: modeWrapLines rest
    else line :: modeWrapLines rest

/-- The per-line part of `fix_syntax_errors` (lines 625–641): close
unbalanced parentheses on `bpy.ops.`/`bpy.data.` lines. -/
def fixParenLine (line : List Char) : List Char :=
  let stripped := pstripL line
  if ¬ stripped.isEmpty
      && (containsSub stripped "bpy.ops.".toList || containsSub stripped "bpy.data.".toList) then
    let o := countC line '('
    let c := countC line ')'
    if c < o then rstripL line ++ List.replicate (o - c) ')' else line
  else line

/-- `fix_syntax_errors` (lines 622–655): per-line paren closing, then
global bracket balancing appended at the end. -/
def fix_syntax_errors (code : String) : String :=
  let cs := joinNl ((splitNl code.toList).map fixParenLine)
  let bCnt : Int := (countC cs '[' : Int) - (countC cs ']' : Int)
  let pCnt : Int := (countC cs '(' : Int) - (countC cs ')' : Int)
  let brCnt : Int := (countC cs '{' : Int) - (countC cs '}' : Int)
  let cs := if 0 < bCnt then cs ++ '\n' :: List.replicate bCnt.toNat ']' else cs
  let cs := if 0 < pCnt then cs ++ '\n' :: List.replicate pCnt.toNat ')' else cs
  let cs := if 0 < brCnt then cs ++ '\n' :: List.replicate brCnt.toNat '}' else cs
  ⟨cs⟩

/-- The tail of `fix_blender_api` from the armature pattern on
(lines 596–620). -/
def pipeAfterAutoLink (cs0 : List Char) : List Char :=
  let cs := subFree armaturePat
    [.g 1, .s "\narm_obj = bpy.context.active_object".toList] cs0
  let cs := joinNl (modeWrapLines (splitNl cs))
  (fix_syntax_errors ⟨cs⟩).toList

/-- The tail of `fix_blender_api` from the auto-link pass on
(lines 518–620). -/
def pipeAfterFilter (cs : List Char) : List Char :=
  pipeAfterAutoLink (joinNl (autoLinkStep ⟨[], [], false⟩ (splitNl cs)))

/-- Everything `fix_blender_api` does after prepending `force_clear`
(lines 454–620), in source order. -/
def fbaAfterPrepend (cs0 : List Char) : List Char :=
  let cs := subFree oldLinkPat
    [.s "bpy.context.collection.objects.link(".toList, .g 1, .s ")".toList] cs0
  let cs := joinNl (dedupLinks [] (splitNl cs))
  let cs := subFree enumJointPat [] cs
  let cs := subFree enumCommaJointPat [] cs
  let cs := subFree enumBonePat [] cs
  let cs := subFree enumConnectPat [.s "connect=True".toList] cs
  let cs := subFree enumRevolutePat [] cs
  let cs := subFree enumHingePat [] cs
  let cs := subFree (fakeOpPat "bpy.ops.rigging.add") [] cs
  let cs := subFree (fakeOpPat "bpy.ops.rigging.create") [] cs
  let cs := subFree (fakeOpPat "bpy.ops.bone.add") [] cs
  let cs := subFree (fakeOpPat "bpy.ops.armature.create") [] cs
  let cs := subFree (fakeOpPat "bpy.ops.joint.add") [] cs
  let cs := (fix_parent_child_errors ⟨cs⟩).toList
  let cs := subFree doubleCommaPat [.s ",".toList] cs
  let cs := subFree parenCommaPat [.s "(".toList] cs
  let cs := subFree commaParenPat [.s ")".toList] cs
  let cs := joinNl ((splitNl cs).filter keepLine)
  pipeAfterFilter cs

/-- `fix_blender_api` (lines 414–620): build the `force_clear` preamble
(with any missing imports), strip the model's own clearing code and
duplicate imports, prepend the preamble, and run the API-repair passes. -/
def fix_blender_api (code : String) : String :=
  let cs := code.toList
  let needMath :=
    (containsSub cs "math.".toList || containsSub cs "math.pi".toList
      || containsSub cs "math.cos".toList || containsSub cs "math.sin".toList)
    && ¬ containsSub cs "import math".toList
  let needVec :=
    (containsSub cs "Vector".toList || containsSub cs "Euler".toList
      || containsSub cs "mathutils".toList)
    && ¬ containsSub cs "from mathutils import".toList
    && ¬ containsSub cs "import mathutils".toList
  let importsNeeded :=
    (if needMath then ["import math"] else [])
      ++ (if needVec then ["from mathutils import Vector"] else [])
  let forceClear :=
    if importsNeeded.isEmpty then fcBase.toList
    else rstripL fcBase.toList ++ '\n' :: joinNl (importsNeeded.map String.toList)
      ++ "\n\n".toList
  let cs := subFree selectAllPat [] cs
  let cs := subFree deletePat [] cs
  let cs := if containsSub cs "import bpy".toList then subLine1 importBpyLinePat true cs else cs
  let cs := if needMath && containsSub cs "import math".toList then
      subLine1 importMathLinePat true cs else cs
  let cs := if needVec && containsSub cs "from mathutils import Vector".toList then
      subLine1 importVectorLinePat true cs else cs
  ⟨fbaAfterPrepend (forceClear ++ cs)⟩

/-! ## `extract_code` (lines 814–911) -/

/-- The conversational words that make a pre-import line skipped (lines 864–866). -/
def convWords : List String :=
  ["certainly", "sure", "here", "below", "script", "following",
   "this will", "creates", "demonstrates"]

/-- Words that make an explanatory comment line skipped (lines 875–876). -/
def commentWords : List String :=
  ["this", "here", "note:", "explanation", "example:", "below", "above",
   "script", "code"]

/-- The ending phrases at which extraction stops (lines 881–882). -/
def endPhrases : List String :=
  ["let me know", "hope this", "feel free", "this will create", "you can",
   "try this", "this should", "if you", "explanation:"]

def anyWordIn (ls : List Char) (wl : List String) : Bool :=
  wl.any (fun w => containsSub ls w.toList)

def startsAny (ls : List Char) (ps : List String) : Bool :=
  ps.any (fun p => isPrefB p.toList ls)

/-- The line filter of `extract_code` (lines 850–887).  `haveLines` is
"`code_lines` is non-empty"; returning `[]` at an ending phrase models
the `break`. -/
def ecFilter (foundImport : Bool) (haveLines : Bool) : List (List Char) → List (List Char)
  | [] => []
  | line :: rest =>
    let stripped := pstripL line
    if ¬ haveLines && stripped.isEmpty then ecFilter foundImport haveLines rest
    else if ¬ foundImport && ¬ stripped.isEmpty
        && ¬ startsAny stripped ["import", "from", "#", "bpy"]
        && anyWordIn (lowerL stripped) convWords then
      ecFilter foundImport haveLines rest
    else
      let fi := foundImport || startsAny stripped ["import", "from"]
      if startsAny stripped ["#"] && anyWordIn (lowerL stripped) commentWords then
        ecFilter fi haveLines rest
      else if anyWordIn (lowerL stripped) endPhrases then []
      else if fi || startsAny stripped ["import", "from", "bpy", "#"] then
        line :: ecFilter fi true rest
      else ecFilter fi haveLines rest

/-- `extract_code` (lines 814–911): strip AI preambles, pull the
markdown code block, filter conversational lines, and fall back to the
first `import bpy` in the original text. -/
def extract_code (textS : String) : String :=
  let text := textS.toList
  if (pstripL text).isEmpty then ""
  else
    let original := text
    let text := subStart preamble1Pat text
    let text := subStart preamble2Pat text
    let text := subStart preamble3Pat text
    let text :=
      if containsSub text "```python".toList then
        match searchCaps codeBlockPyPat text with
        | some cp => capGet cp 1
        | none => text
      else if containsSub text "```".toList then
        match searchCaps codeBlockAnyPat text with
        | some cp => capGet cp 1
        | none => text
      else text
    let result := pstripL (joinNl (ecFilter false false (splitNl text)))
    let result :=
      if result.isEmpty || ¬ containsSub result "import".toList then
        match searchCaps importBpyAllPat original with
        | some cp => subFree tripleNlPat [.s "\n\n".toList] (capGet cp 1)
        | none => result
      else result
    let result := if result.isEmpty then pstripL original else result
    ⟨result⟩

/-! ## `assess_complexity` (lines 283–304) -/

inductive Complexity where
  | simple | moderate | complex
deriving DecidableEq

def complexKws : List String :=
  ["rigging", "rig", "articulated", "armature", "bones", "joints",
   "animate", "animation", "constraint", "ik", "fk", "skeleton"]

def moderateKws : List String :=
  ["multiple", "several", "array", "pattern", "scene", "material",
   "texture", "modifier", "subdivision"]

/-- `assess_complexity`: count complexity keywords in the lowered
prompt (the source's `simple` keyword list is never counted). -/
def assess_complexity (prompt : String) : Complexity :=
  let pl := lowerL prompt.toList
  let cc := (complexKws.filter (fun kw => containsSub pl kw.toList)).length
  let mc := (moderateKws.filter (fun kw => containsSub pl kw.toList)).length
  if 2 ≤ cc then .complex
  else if 1 ≤ cc || 2 ≤ mc then .moderate
  else .simple

/-! ## The streaming loop and `generate_code` (lines 657–812)

HTTP traffic is modelled by environment types.  A streamed line either
is empty (skipped by `if not line: continue`), fails JSON decoding
(skipped by the `json.JSONDecodeError` handler), or is an object with
an optional `"response"` field and a `"done"` field
(`data.get("done", False)`). -/

inductive StreamLine where
  | empty
  | bad
  | obj : Option String → Bool → StreamLine

/-- The response-streaming loop (lines 770–789): accumulate `"response"`
chunks; stop at the first line whose `"done"` is true.  Returns the
accumulated text, whether the loop broke on a done line, and the
unconsumed lines. -/
def streamLoop (acc : List Char) : List StreamLine → List Char × Bool × List StreamLine
  | [] => (acc, false, [])
  | l :: rest =>
    match l with
    | .empty => streamLoop acc rest
    | .bad => streamLoop acc rest
    | .obj r d =>
      let acc' := acc ++ (match r with | some s => s.toList | none => [])
      if d then (acc', true, rest) else streamLoop acc' rest

/-- What the network does on the `/api/generate` POST of
`generate_code`: the three request exceptions, or a streamed response.
`iterCrash` models an exception from `response.iter_lines()` after the
given lines were yielded (the `except Exception` at line 791); it is
reached only when no `done` line stopped the loop first. -/
inductive GenEnv where
  | connError
  | timeout
  | reqError
  | ok : List StreamLine → Bool → GenEnv

def genUrl : String := "http://localhost:11434/api/generate"

def tagsUrl : String := "http://localhost:11434/api/tags"

/-- `generate_code` (lines 657–812).  The request body (system prompt,
token limits) does not influence any modelled output and is not
represented; the returned list is the URLs requested.  A failure of any
kind returns the empty string, exactly as the source does. -/
def generate_code (_prompt _model : String) (_maxTokens : Nat) (_cx : Complexity)
    (net : GenEnv) : String × List String :=
  match net with
  | .connError => ("", [genUrl])
  | .timeout => ("", [genUrl])
  | .reqError => ("", [genUrl])
  | .ok lines iterCrash =>
    let res := streamLoop [] lines
    if iterCrash && !res.2.1 then ("", [genUrl])
    else if (pstripL res.1).isEmpty then ("", [genUrl])
    else
      let code := (extract_code ⟨res.1⟩).toList
      if (pstripL code).isEmpty then ("", [genUrl])
      else (⟨pstripL code⟩, [genUrl])

/-! ## The `execute` operator (lines 134–281) -/

/-- Outcome of one `exec(code, exec_globals)` call, as the operator
distinguishes them: success, an `AttributeError` with its message, a
`SyntaxError`, or any other exception. -/
inductive ExecOutcome where
  | ok
  | attrError : String → ExecOutcome
  | syntaxError : String → ExecOutcome
  | otherError : String → ExecOutcome

inductive OpStatus where
  | finished | cancelled
deriving DecidableEq

/-- The scene state the operator reads and writes: the registered scene
properties and the scene's objects.  (`register`, line 1030, declares
`ollama_last_code` as a persistent scene `StringProperty`.) -/
structure SceneState where
  prompt : String
  model : String
  maxTokens : Nat
  autoMaterial : Bool
  debugMode : Bool
  lastCode : String
  objects : List String

/-- What one invocation of `OLLAMA_OT_execute.execute` did: its return
status, the URLs requested, the code strings passed to `exec` in
order, and the scene state it leaves (`apply_auto_materials` and the
viewport-shading switch touch only materials and UI state, neither the
object list nor the scene properties, so they do not appear). -/
structure OpResult where
  status : OpStatus
  requests : List String
  executed : List String
  lastCode : String
  objects : List String

/-- `OLLAMA_OT_execute.execute` (lines 134–281), parametric in the
network (`net`), `validate_syntax`'s verdict (`validateO`, i.e.
`ast.parse`), and `exec`'s behaviour (`execO`, which may also change
the scene's objects, even when it raises partway through). -/
def executeOp (requestsAvailable : Bool) (st : SceneState) (net : GenEnv)
    (validateO : String → Option String)
    (execO : String → List String → ExecOutcome × List String) : OpResult :=
  if !requestsAvailable then
    ⟨.cancelled, [], [], st.lastCode, st.objects⟩
  else if st.prompt = "" then
    ⟨.cancelled, [], [], st.lastCode, st.objects⟩
  else
    let cx := assess_complexity st.prompt
    let gen := generate_code st.prompt st.model st.maxTokens cx net
    let code := gen.1
    let reqs := gen.2
    if (pstripL code.toList).isEmpty then
      ⟨.cancelled, reqs, [], st.lastCode, st.objects⟩
    else
      let code := fix_blender_api code
      let code := fix_material_errors code
      match validateO code with
      | some err =>
        ⟨.cancelled, reqs, [], "# SYNTAX ERROR:\n# " ++ err ++ "\n\n" ++ code, st.objects⟩
      | none =>
        let r1 := execO code st.objects
        match r1.1 with
        | .ok => ⟨.finished, reqs, [code], code, r1.2⟩
        | .attrError msg =>
          if hasSub msg "add_child" || hasSub msg "set_parent" then
            let code2 := fix_parent_child_errors code
            let r2 := execO code2 r1.2
            match r2.1 with
            | .ok => ⟨.finished, reqs, [code, code2], code2, r2.2⟩
            | _ => ⟨.cancelled, reqs, [code, code2], st.lastCode, r2.2⟩
          else if hasSub msg "world" || hasSub msg "BlendData" then
            let code2 := fix_material_errors code
            let r2 := execO code2 r1.2
            match r2.1 with
            | .ok => ⟨.finished, reqs, [code, code2], code2, r2.2⟩
            | _ => ⟨.cancelled, reqs, [code, code2], st.lastCode, r2.2⟩
          else ⟨.cancelled, reqs, [code], st.lastCode, r1.2⟩
        | .syntaxError _ => ⟨.cancelled, reqs, [code], st.lastCode, r1.2⟩
        | .otherError _ => ⟨.cancelled, reqs, [code], st.lastCode, r1.2⟩

/-! ## The `test_connection` operator (lines 54–125) -/

/-- What the network does for `OLLAMA_OT_test_connection.execute`:
either the GET of `/api/tags` raises, or it succeeds and the POST of
`/api/generate` raises, or both succeed with a generated text. -/
inductive TCEnv where
  | tagsError
  | genError : List String → TCEnv
  | ok : List String → String → TCEnv

/-- `OLLAMA_OT_test_connection.execute`: its status and the URLs it
requested (an empty generation only changes the report level, lines
98–103). -/
def test_connection (_model : String) (env : TCEnv) : OpStatus × List String :=
  match env with
  | .tagsError => (.cancelled, [tagsUrl])
  | .genError _ => (.cancelled, [tagsUrl, genUrl])
  | .ok _ _ => (.finished, [tagsUrl, genUrl])

/-! ## Specification-side definitions

These transcribe the *claims'* wording, to be compared with the
embedded source functions. -/

/-- The streamed lines "up to and including the first line whose
`done` field is true" (claim C3's wording). -/
def takeThroughDone : List StreamLine → List StreamLine
  | [] => []
  | .obj r true :: _ => [.obj r true]
  | l :: rest => l :: takeThroughDone rest

/-- The streamed lines after the first `done` line (what a loop that
"stops at that line" leaves unconsumed). -/
def dropThroughDone : List StreamLine → List StreamLine
  | [] => []
  | .obj _ true :: rest => rest
  | _ :: rest => dropThroughDone rest

/-- The `"response"` fields of the parsed lines, in order; empty and
unparsable lines, and objects without a `"response"` field, are skipped. -/
def responsesOf : List StreamLine → List (List Char)
  | [] => []
  | .obj (some s) _ :: rest => s.toList :: responsesOf rest
  | _ :: rest => responsesOf rest

/-- Whether some line has a true `done` field. -/
def hasDoneB : List StreamLine → Bool
  | [] => false
  | .obj _ true :: _ => true
  | _ :: rest => hasDoneB rest

/-! ## A conservative liveness check for match attempts

`liveRE re cs k = false` certifies that a match attempt of `re` at the
start of `cs ++ suf` fails for *every* continuation string `suf` (and
every continuation `k` that fails wherever the boolean `k` does).  It
mirrors `matchRE` branch by branch but returns `true` whenever a
branch survives to the end of the available characters. -/

def anyUpTo (k : List Char → Bool) (cs : List Char) : Nat → Bool
  | 0 => k cs
  | j + 1 => k (cs.drop (j + 1)) || anyUpTo k cs j

def liveRE (re : RE) (cs : List Char) (k : List Char → Bool) : Bool :=
  match re with
  | .eps => k cs
  | .cls cl =>
    match cs with
    | [] => true
    | c :: rest => cl.test c && k rest
  | .seq a b => liveRE a cs (fun cs' => liveRE b cs' k)
  | .alt a b => liveRE a cs k || liveRE b cs k
  | .opt _ a => liveRE a cs k || k cs
  | .star _ cl => (runLen cl cs == cs.length) || anyUpTo k cs (runLen cl cs)
  | .grp _ a => liveRE a cs k

/-- No match of `re` can start at any position strictly inside `pre`,
whatever follows `pre`. -/
def blockedAll (re : RE) : List Char → Bool
  | [] => true
  | c :: cs => !(liveRE re (c :: cs) (fun _ => true)) && blockedAll re cs

/-- The fixed preamble of claim C8: `import bpy` followed by the
context-safe clearing loop (the part of `force_clear` common to all
four import variants). -/
def claimPre : String :=
  "import bpy\n\n# Context-safe scene clearing (works from any context)\nfor obj in list(bpy.data.objects):\n    bpy.data.objects.remove(obj, do_unlink=True)\n"

/-- The `force_clear` variant when only `import math` is missing. -/
def fcMath : String := claimPre ++ "import math\n\n"

/-- The `force_clear` variant when only the `Vector` import is missing. -/
def fcVec : String := claimPre ++ "from mathutils import Vector\n\n"

/-- The `force_clear` variant when both imports are missing. -/
def fcBoth : String := claimPre ++ "import math\nfrom mathutils import Vector\n\n"

/-- A line on which one step of the auto-link pass fires none of its
guards: it is copied unchanged with an unchanged state. -/
def alNeutral (l : List Char) : Bool :=
  !containsSub l "mode_set".toList &&
  !containsSub l "bpy.ops.mesh.primitive_".toList &&
  !containsSub l "bpy.ops.object.".toList &&
  !containsSub l "collection.objects.link(".toList &&
  !containsSub l "scene.objects.link(".toList &&
  (searchCaps newObjPat l).isNone

/-- The characters of a list of lines, each closed by a newline. -/
def linesFlat (ls : List (List Char)) : List Char :=
  (ls.map (fun l => l ++ ['\n'])).flatten

/-- The lines of `fcBase` (with its trailing blank line). -/
def fcBaseLines : List (List Char) :=
  ["import bpy".toList, [],
   "# Context-safe scene clearing (works from any context)".toList,
   "for obj in list(bpy.data.objects):".toList,
   "    bpy.data.objects.remove(obj, do_unlink=True)".toList, []]

/-- The lines of `fcMath`. -/
def fcMathLines : List (List Char) :=
  ["import bpy".toList, [],
   "# Context-safe scene clearing (works from any context)".toList,
   "for obj in list(bpy.data.objects):".toList,
   "    bpy.data.objects.remove(obj, do_unlink=True)".toList,
   "import math".toList, []]

/-- The lines of `fcVec`. -/
def fcVecLines : List (List Char) :=
  ["import bpy".toList, [],
   "# Context-safe scene clearing (works from any context)".toList,
   "for obj in list(bpy.data.objects):".toList,
   "    bpy.data.objects.remove(obj, do_unlink=True)".toList,
   "from mathutils import Vector".toList, []]

/-- The lines of `fcBoth`. -/
def fcBothLines : List (List Char) :=
  ["import bpy".toList, [],
   "# Context-safe scene clearing (works from any context)".toList,
   "for obj in list(bpy.data.objects):".toList,
   "    bpy.data.objects.remove(obj, do_unlink=True)".toList,
   "import math".toList, "from mathutils import Vector".toList, []]

/-! ## Concrete fixtures for witnesses and counterexamples -/

/-- A scene with a non-empty prompt and a fresh scene state. -/
def stFix : SceneState :=
  ⟨"make a cube", "qwen2.5-coder:3b", 600, true, false, "", []⟩

/-- The same scene with an empty prompt. -/
def stEmptyFix : SceneState :=
  ⟨"", "qwen2.5-coder:3b", 600, true, false, "", []⟩

/-- A network that streams one done line with a well-formed script. -/
def netOkFix : GenEnv :=
  .ok [.obj (some "import bpy\nbpy.ops.mesh.primitive_cube_add()") true] false

/-- A network that streams a script with an `add_child` call whose
closing parenthesis is missing.  The parent-child rewrite inside
`fix_blender_api` cannot match the unclosed call, but the per-line
paren closer at the end of the pipeline completes it (the line mentions
`bpy.data.`), so the repaired code reaching `exec` contains an intact
`add_child` call that only the `AttributeError` retry pass rewrites. -/
def netAttrFix : GenEnv :=
  .ok [.obj (some "import bpy\nx = bpy.data.objects; x.add_child(y") true] false

/-- An `ast.parse` oracle that accepts everything. -/
def vNoneFix : String → Option String := fun _ => none

/-- An `exec` oracle that always succeeds, adding one object. -/
def xOkFix : String → List String → ExecOutcome × List String :=
  fun _ objs => (.ok, "Cube" :: objs)

/-- An `exec` oracle that raises `AttributeError` on code still
containing `add_child`, and succeeds otherwise. -/
def xAttrFix : String → List String → ExecOutcome × List String :=
  fun c objs =>
    if hasSub c "add_child" then
      (.attrError "'Object' object has no attribute 'add_child'", objs)
    else (.ok, objs)

/-! ## Staged views of `fix_blender_api`, for concrete evaluation -/

/-- The front of `fix_blender_api` up to and including prepending the
`force_clear` preamble (lines 414–453): what `fbaAfterPrepend` is then
applied to. -/
def fbaPrep (code : String) : List Char :=
  let cs := code.toList
  let needMath :=
    (containsSub cs "math.".toList || containsSub cs "math.pi".toList
      || containsSub cs "math.cos".toList || containsSub cs "math.sin".toList)
    && ¬ containsSub cs "import math".toList
  let needVec :=
    (containsSub cs "Vector".toList || containsSub cs "Euler".toList
      || containsSub cs "mathutils".toList)
    && ¬ containsSub cs "from mathutils import".toList
    && ¬ containsSub cs "import mathutils".toList
  let importsNeeded :=
    (if needMath then ["import math"] else [])
      ++ (if needVec then ["from mathutils import Vector"] else [])
  let forceClear :=
    if importsNeeded.isEmpty then fcBase.toList
    else rstripL fcBase.toList ++ '\n' :: joinNl (importsNeeded.map String.toList)
      ++ "\n\n".toList
  let cs := subFree selectAllPat [] cs
  let cs := subFree deletePat [] cs
  let cs := if containsSub cs "import bpy".toList then subLine1 importBpyLinePat true cs else cs
  let cs := if needMath && containsSub cs "import math".toList then
      subLine1 importMathLinePat true cs else cs
  let cs := if needVec && containsSub cs "from mathutils import Vector".toList then
      subLine1 importVectorLinePat true cs else cs
  forceClear ++ cs

/-- The stages of `fbaAfterPrepend` before the auto-link pass (lines
454–517): everything up to and including the blank-line filter. -/
def frontStages (cs0 : List Char) : List Char :=
  let cs := subFree oldLinkPat
    [.s "bpy.context.collection.objects.link(".toList, .g 1, .s ")".toList] cs0
  let cs := joinNl (dedupLinks [] (splitNl cs))
  let cs := subFree enumJointPat [] cs
  let cs := subFree enumCommaJointPat [] cs
  let cs := subFree enumBonePat [] cs
  let cs := subFree enumConnectPat [.s "connect=True".toList] cs
  let cs := subFree enumRevolutePat [] cs
  let cs := subFree enumHingePat [] cs
  let cs := subFree (fakeOpPat "bpy.ops.rigging.add") [] cs
  let cs := subFree (fakeOpPat "bpy.ops.rigging.create") [] cs
  let cs := subFree (fakeOpPat "bpy.ops.bone.add") [] cs
  let cs := subFree (fakeOpPat "bpy.ops.armature.create") [] cs
  let cs := subFree (fakeOpPat "bpy.ops.joint.add") [] cs
  let cs := (fix_parent_child_errors ⟨cs⟩).toList
  let cs := subFree doubleCommaPat [.s ",".toList] cs
  let cs := subFree parenCommaPat [.s "(".toList] cs
  let cs := subFree commaParenPat [.s ")".toList] cs
  joinNl ((splitNl cs).filter keepLine)

/-- The code the model streams in `netAttrFix`, as extracted. -/
def c4Gen : String := "import bpy\nx = bpy.data.objects; x.add_child(y"

/-- The lines of the repaired `netAttrFix` code before the final
syntax pass. -/
def c4Lines : List (List Char) :=
  ["import bpy".toList, [],
   "# Context-safe scene clearing (works from any context)".toList,
   "for obj in list(bpy.data.objects):".toList,
   "    bpy.data.objects.remove(obj, do_unlink=True)".toList, [],
   "x = bpy.data.objects; x.add_child(y".toList]

/-- What `fix_blender_api` makes of the `netAttrFix` code: the per-line
paren closer completed the `add_child` call. -/
def c4Rep : String :=
  "import bpy\n\n# Context-safe scene clearing (works from any context)\nfor obj in list(bpy.data.objects):\n    bpy.data.objects.remove(obj, do_unlink=True)\n\nx = bpy.data.objects; x.add_child(y)"

/-- The retry rewrite of `c4Rep`: `x.add_child(y)` became
`y.parent = x`. -/
def c4Rep2 : String :=
  "import bpy\n\n# Context-safe scene clearing (works from any context)\nfor obj in list(bpy.data.objects):\n    bpy.data.objects.remove(obj, do_unlink=True)\n\nx = bpy.data.objects; y.parent = x"

/-! ## Engine lemmas -/

theorem runLen_le (cl : Cls) : ∀ cs : List Char, runLen cl cs ≤ cs.length := by
  intro cs
  induction cs with
  | nil => simp [runLen]
  | cons c rest ih =>
    simp only [runLen, List.length_cons]
    split <;> omega

theorem runLen_append_of_lt (cl : Cls) :
    ∀ cs : List Char, runLen cl cs < cs.length →
      ∀ suf, runLen cl (cs ++ suf) = runLen cl cs := by
  intro cs
  induction cs with
  | nil => simp [runLen]
  | cons c rest ih =>
    intro h suf
    by_cases hc : cl.test c = true
    · have h' : runLen cl rest < rest.length := by
        simp only [runLen, hc, if_true, List.length_cons] at h
        omega
      show runLen cl (c :: (rest ++ suf)) = _
      simp only [runLen, hc, if_true]
      rw [ih h' suf]
    · show runLen cl (c :: (rest ++ suf)) = _
      simp [runLen, hc]

theorem anyUpTo_false (k : List Char → Bool) (cs : List Char) :
    ∀ n, anyUpTo k cs n = false → ∀ j, j ≤ n → k (cs.drop j) = false := by
  intro n
  induction n with
  | zero =>
    intro h j hj
    interval_cases j
    simpa [anyUpTo] using h
  | succ m ih =>
    intro h j hj
    simp only [anyUpTo, Bool.or_eq_false_iff] at h
    rcases Nat.lt_or_ge j (m + 1) with hlt | hge
    · exact ih h.2 j (by omega)
    · have : j = m + 1 := by omega
      subst this
      exact h.1

theorem tryDown_none {α : Type} (K : List Char → Caps → Option α) (cs : List Char) (cp : Caps) :
    ∀ n, (∀ j, j ≤ n → K (cs.drop j) cp = none) → tryDown K cs cp n = none := by
  intro n
  induction n with
  | zero =>
    intro h
    simpa [tryDown] using h 0 (le_refl 0)
  | succ m ih =>
    intro h
    simp only [tryDown]
    rw [h (m + 1) (le_refl _)]
    exact ih (fun j hj => h j (by omega))

theorem tryUp_none {α : Type} (K : List Char → Caps → Option α) (cs : List Char) (cp : Caps) :
    ∀ r j, (∀ i, j ≤ i → i ≤ j + r → K (cs.drop i) cp = none) → tryUp K cs cp j r = none := by
  intro r
  induction r with
  | zero =>
    intro j h
    simpa [tryUp] using h j (le_refl _) (by omega)
  | succ m ih =>
    intro j h
    simp only [tryUp]
    rw [h j (le_refl _) (by omega)]
    exact ih (j + 1) (fun i h1 h2 => h i (by omega) (by omega))

theorem live_sound {α : Type} (re : RE) :
    ∀ (cs suf : List Char) (k : List Char → Bool)
      (K : List Char → Caps → Option α),
      liveRE re cs k = false →
      (∀ cs₁, cs₁ <:+ cs → k cs₁ = false → ∀ cp, K (cs₁ ++ suf) cp = none) →
      ∀ cp, matchRE re (cs ++ suf) cp K = none := by
  induction re with
  | eps =>
    intro cs suf k K hl hK cp
    simp only [liveRE] at hl
    simpa [matchRE] using hK cs (List.suffix_refl cs) hl cp
  | cls cl =>
    intro cs suf k K hl hK cp
    cases cs with
    | nil => simp [liveRE] at hl
    | cons c rest =>
      simp only [liveRE, Bool.and_eq_false_iff] at hl
      simp only [List.cons_append, matchRE]
      rcases hl with hl | hl
      · simp [hl]
      · split
        · exact hK rest (List.suffix_cons c rest) hl cp
        · rfl
  | seq a b iha ihb =>
    intro cs suf k K hl hK cp
    simp only [liveRE] at hl
    simp only [matchRE]
    refine iha cs suf _ _ hl ?_ cp
    intro cs₁ hsuf hlb cp'
    refine ihb cs₁ suf k K hlb ?_ cp'
    intro cs₂ hsuf2 hk cp''
    exact hK cs₂ (hsuf2.trans hsuf) hk cp''
  | alt a b iha ihb =>
    intro cs suf k K hl hK cp
    simp only [liveRE, Bool.or_eq_false_iff] at hl
    simp only [matchRE]
    rw [iha cs suf k K hl.1 hK cp, ihb cs suf k K hl.2 hK cp]
  | opt g a iha =>
    intro cs suf k K hl hK cp
    simp only [liveRE, Bool.or_eq_false_iff] at hl
    simp only [matchRE]
    cases g <;> simp only [if_true, if_false, Bool.false_eq_true, ite_false, ite_true]
    · rw [hK cs (List.suffix_refl cs) hl.2 cp, iha cs suf k K hl.1 hK cp]
    · rw [iha cs suf k K hl.1 hK cp, hK cs (List.suffix_refl cs) hl.2 cp]
  | star g cl =>
    intro cs suf k K hl hK cp
    simp only [liveRE, Bool.or_eq_false_iff] at hl
    obtain ⟨hne, hany⟩ := hl
    have hlt : runLen cl cs < cs.length := by
      have := runLen_le cl cs
      have hne' : runLen cl cs ≠ cs.length := by
        intro h
        simp [h] at hne
      omega
    have hrl : runLen cl (cs ++ suf) = runLen cl cs := runLen_append_of_lt cl cs hlt suf
    have hdrop : ∀ j, j ≤ runLen cl cs → K ((cs ++ suf).drop j) cp = none := by
      intro j hj
      have hj' : j ≤ cs.length := by omega
      rw [List.drop_append_of_le_length hj']
      exact hK (cs.drop j) (List.drop_suffix j cs) (anyUpTo_false k cs _ hany j hj) cp
    simp only [matchRE, hrl]
    cases g <;> simp only [Bool.false_eq_true, ite_false, ite_true]
    · exact tryUp_none K (cs ++ suf) cp _ 0 (fun i h1 h2 => hdrop i (by omega))
    · exact tryDown_none K (cs ++ suf) cp _ hdrop
  | grp n a iha =>
    intro cs suf k K hl hK cp
    simp only [liveRE] at hl
    simp only [matchRE]
    refine iha cs suf k _ hl ?_ cp
    intro cs₁ hsuf hk cp'
    exact hK cs₁ hsuf hk _

theorem blocked_mAt_none (re : RE) (cs suf : List Char)
    (h : liveRE re cs (fun _ => true) = false) : mAt re (cs ++ suf) = none := by
  unfold mAt
  rw [live_sound re cs suf (fun _ => true) _ h (fun cs₁ _ hk => by simp at hk)]

theorem blockedAll_cons (re : RE) (c : Char) (cs : List Char)
    (h : blockedAll re (c :: cs) = true) :
    liveRE re (c :: cs) (fun _ => true) = false ∧ blockedAll re cs = true := by
  simp only [blockedAll, Bool.and_eq_true, Bool.not_eq_true'] at h
  exact h

theorem subFreeF_pre (re : RE) (tpl : Tpl) :
    ∀ pre : List Char, blockedAll re pre = true →
      ∀ fuel s, subFreeF re tpl (pre.length + fuel) (pre ++ s) =
        pre ++ subFreeF re tpl fuel s := by
  intro pre
  induction pre with
  | nil => intro _ fuel s; simp
  | cons c pre' ih =>
    intro h fuel s
    obtain ⟨hlive, hblk⟩ := blockedAll_cons re c pre' h
    have hm : mAt re ((c :: pre') ++ s) = none := blocked_mAt_none re (c :: pre') s hlive
    show subFreeF re tpl (pre'.length + 1 + fuel) (c :: (pre' ++ s)) = _
    have harith : pre'.length + 1 + fuel = (pre'.length + fuel) + 1 := by omega
    rw [harith]
    simp only [subFreeF]
    rw [show ((c :: pre') ++ s : List Char) = c :: (pre' ++ s) from rfl] at hm
    rw [hm]
    simp [ih hblk fuel s]

theorem subFree_pre (re : RE) (tpl : Tpl) (pre : List Char)
    (h : blockedAll re pre = true) (s : List Char) :
    subFree re tpl (pre ++ s) = pre ++ subFree re tpl s := by
  unfold subFree
  have harith : (pre ++ s).length + 1 = pre.length + (s.length + 1) := by
    simp [List.length_append]
    omega
  rw [harith, subFreeF_pre re tpl pre h (s.length + 1) s]

/-! ## Stream-loop characterisation -/

theorem streamLoop_spec (ls : List StreamLine) (acc : List Char) :
    streamLoop acc ls =
      (acc ++ (responsesOf (takeThroughDone ls)).flatten, hasDoneB ls, dropThroughDone ls) := by
  induction ls generalizing acc with
  | nil => simp [streamLoop, takeThroughDone, responsesOf, hasDoneB, dropThroughDone]
  | cons l rest ih =>
    cases l with
    | empty =>
      simpa [streamLoop, takeThroughDone, responsesOf, hasDoneB, dropThroughDone] using ih acc
    | bad =>
      simpa [streamLoop, takeThroughDone, responsesOf, hasDoneB, dropThroughDone] using ih acc
    | obj r d =>
      cases d with
      | true =>
        cases r <;>
          simp [streamLoop, takeThroughDone, responsesOf, hasDoneB, dropThroughDone]
      | false =>
        cases r <;>
          simp [streamLoop, takeThroughDone, responsesOf, hasDoneB, dropThroughDone, ih,
            List.append_assoc]

/-! ## Line-structure lemmas -/

theorem isPrefB_isPrefix : ∀ p l : List Char, isPrefB p l = true → p <+: l := by
  intro p
  induction p with
  | nil => intro l _; exact List.nil_prefix
  | cons a as ih =>
    intro l h
    cases l with
    | nil => simp [isPrefB] at h
    | cons b bs =>
      simp only [isPrefB, Bool.and_eq_true, decide_eq_true_eq] at h
      obtain ⟨rfl, h2⟩ := h
      obtain ⟨t, ht⟩ := ih bs h2
      exact ⟨t, by simp [ht]⟩

theorem splitNlAux_ne_nil : ∀ (acc cs : List Char), splitNlAux acc cs ≠ [] := by
  intro acc cs
  induction cs generalizing acc with
  | nil => simp [splitNlAux]
  | cons c rest ih =>
    simp only [splitNlAux]
    split
    · simp
    · exact ih _

theorem splitNl_ne_nil (cs : List Char) : splitNl cs ≠ [] := splitNlAux_ne_nil [] cs

theorem joinNl_cons_of_ne (l : List Char) (ls : List (List Char)) (h : ls ≠ []) :
    joinNl (l :: ls) = l ++ '\n' :: joinNl ls := by
  cases ls with
  | nil => exact absurd rfl h
  | cons a as => rfl

theorem joinNl_append_ne (ls r : List (List Char)) (h : r ≠ []) :
    joinNl (ls ++ r) = linesFlat ls ++ joinNl r := by
  induction ls with
  | nil => simp [linesFlat]
  | cons l ls' ih =>
    have hne : ls' ++ r ≠ [] := by
      intro hc
      exact h (List.append_eq_nil.mp hc).2
    rw [List.cons_append, joinNl_cons_of_ne l (ls' ++ r) hne, ih]
    simp [linesFlat]

theorem dedupLinks_neutral_append (PL : List (List Char))
    (h : PL.all (fun l => (searchCaps dupLinkPat l).isNone) = true) :
    ∀ seen r, dedupLinks seen (PL ++ r) = PL ++ dedupLinks seen r := by
  induction PL with
  | nil => intro seen r; rfl
  | cons l PL' ih =>
    intro seen r
    simp only [List.all_cons, Bool.and_eq_true] at h
    have hl : searchCaps dupLinkPat l = none := Option.isNone_iff_eq_none.mp h.1
    show dedupLinks seen (l :: (PL' ++ r)) = _
    simp only [dedupLinks, hl]
    rw [ih h.2 seen r]
    simp

theorem dedupLinks_ne_nil : ∀ (ls : List (List Char)), ls ≠ [] → dedupLinks [] ls ≠ [] := by
  intro ls h
  cases ls with
  | nil => exact absurd rfl h
  | cons l rest =>
    simp only [dedupLinks]
    split
    · rename_i cp _
      simp
    · simp

theorem modeWrap_neutral_append (PL : List (List Char))
    (h : PL.all (fun l => !containsSub l "mode_set".toList) = true) :
    ∀ r, modeWrapLines (PL ++ r) = PL ++ modeWrapLines r := by
  induction PL with
  | nil => intro r; rfl
  | cons l PL' ih =>
    intro r
    simp only [List.all_cons, Bool.and_eq_true, Bool.not_eq_true'] at h
    show modeWrapLines (l :: (PL' ++ r)) = _
    simp only [modeWrapLines, h.1]
    simp only [Bool.false_and, Bool.false_eq_true, if_false]
    rw [ih h.2 r]
    simp

theorem modeWrap_ne_nil : ∀ ls : List (List Char), ls ≠ [] → modeWrapLines ls ≠ [] := by
  intro ls h
  cases ls with
  | nil => exact absurd rfl h
  | cons l rest =>
    simp only [modeWrapLines]
    split <;> simp

theorem alNeutral_parts (l : List Char) (h : alNeutral l = true) :
    containsSub l "mode_set".toList = false ∧
    containsSub l "bpy.ops.mesh.primitive_".toList = false ∧
    containsSub l "bpy.ops.object.".toList = false ∧
    containsSub l "collection.objects.link(".toList = false ∧
    containsSub l "scene.objects.link(".toList = false ∧
    searchCaps newObjPat l = none := by
  simp only [alNeutral, Bool.and_eq_true, Bool.not_eq_true'] at h
  exact ⟨h.1.1.1.1.1, h.1.1.1.1.2, h.1.1.1.2, h.1.1.2, h.1.2,
    Option.isNone_iff_eq_none.mp h.2⟩

theorem autoLink_neutral_append (PL : List (List Char)) (h : PL.all alNeutral = true) :
    ∀ st r, autoLinkStep st (PL ++ r) = PL ++ autoLinkStep st r := by
  induction PL with
  | nil => intro st r; rfl
  | cons l PL' ih =>
    intro st r
    simp only [List.all_cons, Bool.and_eq_true] at h
    obtain ⟨hl, hrest⟩ := h
    obtain ⟨h1, h2, h3, h4, h5, h6⟩ := alNeutral_parts l hl
    show autoLinkStep st (l :: (PL' ++ r)) = _
    simp only [autoLinkStep, h1, h2, h3, h4, h5, h6, Bool.false_and, Bool.or_self,
      Bool.false_eq_true, if_false, ite_self]
    rw [ih hrest st r]
    simp

theorem fix_syntax_shape (P : String) (PL : List (List Char))
    (hsplit : ∀ s, splitNl (P.toList ++ s) = PL ++ splitNl s)
    (hflat : linesFlat PL = P.toList)
    (hfix : PL.map fixParenLine = PL) (x : List Char) :
    ∃ t, (fix_syntax_errors ⟨P.toList ++ x⟩).toList = P.toList ++ t := by
  have hne : (splitNl x).map fixParenLine ≠ [] := by
    intro hc
    exact splitNl_ne_nil x (List.map_eq_nil_iff.mp hc)
  have hjoin : joinNl ((splitNl (P.toList ++ x)).map fixParenLine) =
      P.toList ++ joinNl ((splitNl x).map fixParenLine) := by
    rw [hsplit, List.map_append, hfix, joinNl_append_ne _ _ hne, hflat]
  have hjoin' : joinNl (List.map fixParenLine (splitNl (P.data ++ x))) =
      P.data ++ joinNl (List.map fixParenLine (splitNl x)) := hjoin
  show ∃ t, (fix_syntax_errors ⟨P.toList ++ x⟩).data = P.toList ++ t
  simp only [fix_syntax_errors, String.toList]
  rw [hjoin']
  split_ifs <;> (try simp only [List.append_assoc]) <;> exact ⟨_, rfl⟩

theorem pipeAfterAutoLink_prefix (P : String) (PL : List (List Char))
    (hsplit : ∀ s, splitNl (P.toList ++ s) = PL ++ splitNl s)
    (hflat : linesFlat PL = P.toList)
    (hclaim : isPrefB claimPre.toList P.toList = true)
    (hbArm : blockedAll armaturePat P.toList = true)
    (hmode : PL.all (fun l => !containsSub l "mode_set".toList) = true)
    (hfix : PL.map fixParenLine = PL) :
    ∀ x, claimPre.toList <+: pipeAfterAutoLink (P.toList ++ x) := by
  intro x
  have hP : claimPre.toList <+: P.toList := isPrefB_isPrefix _ _ hclaim
  simp only [pipeAfterAutoLink]
  rw [subFree_pre _ _ _ hbArm x]
  rw [hsplit, modeWrap_neutral_append PL hmode,
    joinNl_append_ne _ _ (modeWrap_ne_nil _ (splitNl_ne_nil _)), hflat]
  obtain ⟨t, ht⟩ := fix_syntax_shape P PL hsplit hflat hfix
    (joinNl (modeWrapLines (splitNl (subFree armaturePat
      [TplI.g 1, TplI.s "\narm_obj = bpy.context.active_object".toList] x))))
  rw [ht]
  exact hP.trans (List.prefix_append _ _)

theorem pipeAfterFilter_prefix (P : String) (PL : List (List Char))
    (hsplit : ∀ s, splitNl (P.toList ++ s) = PL ++ splitNl s)
    (hflat : linesFlat PL = P.toList)
    (hclaim : isPrefB claimPre.toList P.toList = true)
    (hbArm : blockedAll armaturePat P.toList = true)
    (halN : PL.all alNeutral = true)
    (hmode : PL.all (fun l => !containsSub l "mode_set".toList) = true)
    (hfix : PL.map fixParenLine = PL)
    (hc2 : isPrefB claimPre.toList (pipeAfterAutoLink (joinNl PL)) = true) :
    ∀ x, claimPre.toList <+: pipeAfterFilter (P.toList ++ x) := by
  intro x
  simp only [pipeAfterFilter]
  rw [hsplit, autoLink_neutral_append PL halN]
  cases hr : autoLinkStep ⟨[], [], false⟩ (splitNl x) with
  | nil =>
    rw [List.append_nil]
    exact isPrefB_isPrefix _ _ hc2
  | cons a as =>
    rw [joinNl_append_ne _ _ (by simp), hflat]
    exact pipeAfterAutoLink_prefix P PL hsplit hflat hclaim hbArm hmode hfix _

theorem fbaAfterPrepend_prefix (P : String) (PL : List (List Char))
    (hsplit : ∀ s, splitNl (P.toList ++ s) = PL ++ splitNl s)
    (hflat : linesFlat PL = P.toList)
    (hclaim : isPrefB claimPre.toList P.toList = true)
    (hb : ∀ re ∈ [oldLinkPat, enumJointPat, enumCommaJointPat, enumBonePat,
      enumConnectPat, enumRevolutePat, enumHingePat,
      fakeOpPat "bpy.ops.rigging.add", fakeOpPat "bpy.ops.rigging.create",
      fakeOpPat "bpy.ops.bone.add", fakeOpPat "bpy.ops.armature.create",
      fakeOpPat "bpy.ops.joint.add", addChildPat, setParentPat,
      doubleCommaPat, parenCommaPat, commaParenPat, armaturePat],
      blockedAll re P.toList = true)
    (hdedup : PL.all (fun l => (searchCaps dupLinkPat l).isNone) = true)
    (hkeep : PL.filter keepLine = PL)
    (halN : PL.all alNeutral = true)
    (hmode : PL.all (fun l => !containsSub l "mode_set".toList) = true)
    (hfix : PL.map fixParenLine = PL)
    (hc1 : isPrefB claimPre.toList (pipeAfterFilter (joinNl PL)) = true)
    (hc2 : isPrefB claimPre.toList (pipeAfterAutoLink (joinNl PL)) = true) :
    ∀ s, claimPre.toList <+: fbaAfterPrepend (P.toList ++ s) := by
  intro s
  have hjoinP : ∀ (r : List (List Char)), r ≠ [] →
      joinNl (PL ++ r) = P.toList ++ joinNl r := by
    intro r hr
    rw [joinNl_append_ne _ _ hr, hflat]
  obtain ⟨s1, e1⟩ : ∃ t, subFree oldLinkPat
      [TplI.s "bpy.context.collection.objects.link(".toList, TplI.g 1, TplI.s ")".toList]
      (P.toList ++ s) = P.toList ++ t := by
    exact ⟨_, subFree_pre _ _ _ (hb oldLinkPat (by simp)) s⟩
  obtain ⟨s2, e2⟩ : ∃ t, joinNl (dedupLinks [] (splitNl (P.toList ++ s1))) =
      P.toList ++ t := by
    refine ⟨joinNl (dedupLinks [] (splitNl s1)), ?_⟩
    rw [hsplit, dedupLinks_neutral_append PL hdedup,
      hjoinP _ (dedupLinks_ne_nil _ (splitNl_ne_nil _))]
  obtain ⟨s3, e3⟩ : ∃ t, subFree enumJointPat [] (P.toList ++ s2) = P.toList ++ t := by
    exact ⟨_, subFree_pre _ _ _ (hb enumJointPat (by simp)) s2⟩
  obtain ⟨s4, e4⟩ : ∃ t, subFree enumCommaJointPat [] (P.toList ++ s3) = P.toList ++ t := by
    exact ⟨_, subFree_pre _ _ _ (hb enumCommaJointPat (by simp)) s3⟩
  obtain ⟨s5, e5⟩ : ∃ t, subFree enumBonePat [] (P.toList ++ s4) = P.toList ++ t := by
    exact ⟨_, subFree_pre _ _ _ (hb enumBonePat (by simp)) s4⟩
  obtain ⟨s6, e6⟩ : ∃ t, subFree enumConnectPat [TplI.s "connect=True".toList]
      (P.toList ++ s5) = P.toList ++ t := by
    exact ⟨_, subFree_pre _ _ _ (hb enumConnectPat (by simp)) s5⟩
  obtain ⟨s7, e7⟩ : ∃ t, subFree enumRevolutePat [] (P.toList ++ s6) = P.toList ++ t := by
    exact ⟨_, subFree_pre _ _ _ (hb enumRevolutePat (by simp)) s6⟩
  obtain ⟨s8, e8⟩ : ∃ t, subFree enumHingePat [] (P.toList ++ s7) = P.toList ++ t := by
    exact ⟨_, subFree_pre _ _ _ (hb enumHingePat (by simp)) s7⟩
  obtain ⟨s9, e9⟩ : ∃ t, subFree (fakeOpPat "bpy.ops.rigging.add") []
      (P.toList ++ s8) = P.toList ++ t := by
    exact ⟨_, subFree_pre _ _ _ (hb (fakeOpPat "bpy.ops.rigging.add") (by simp)) s8⟩
  obtain ⟨s10, e10⟩ : ∃ t, subFree (fakeOpPat "bpy.ops.rigging.create") []
      (P.toList ++ s9) = P.toList ++ t := by
    exact ⟨_, subFree_pre _ _ _ (hb (fakeOpPat "bpy.ops.rigging.create") (by simp)) s9⟩
  obtain ⟨s11, e11⟩ : ∃ t, subFree (fakeOpPat "bpy.ops.bone.add") []
      (P.toList ++ s10) = P.toList ++ t := by
    exact ⟨_, subFree_pre _ _ _ (hb (fakeOpPat "bpy.ops.bone.add") (by simp)) s10⟩
  obtain ⟨s12, e12⟩ : ∃ t, subFree (fakeOpPat "bpy.ops.armature.create") []
      (P.toList ++ s11) = P.toList ++ t := by
    exact ⟨_, subFree_pre _ _ _ (hb (fakeOpPat "bpy.ops.armature.create") (by simp)) s11⟩
  obtain ⟨s13, e13⟩ : ∃ t, subFree (fakeOpPat "bpy.ops.joint.add") []
      (P.toList ++ s12) = P.toList ++ t := by
    exact ⟨_, subFree_pre _ _ _ (hb (fakeOpPat "bpy.ops.joint.add") (by simp)) s12⟩
  obtain ⟨s14, e14⟩ : ∃ t, (fix_parent_child_errors ⟨P.toList ++ s13⟩).toList =
      P.toList ++ t := by
    refine ⟨subFree setParentPat [TplI.g 1, TplI.s ".parent = ".toList, TplI.g 2]
      (subFree addChildPat [TplI.g 2, TplI.s ".parent = ".toList, TplI.g 1] s13), ?_⟩
    show subFree setParentPat [TplI.g 1, TplI.s ".parent = ".toList, TplI.g 2]
        (subFree addChildPat [TplI.g 2, TplI.s ".parent = ".toList, TplI.g 1]
          (P.toList ++ s13)) = _
    rw [subFree_pre _ _ _ (hb addChildPat (by simp)),
      subFree_pre _ _ _ (hb setParentPat (by simp))]
  obtain ⟨s15, e15⟩ : ∃ t, subFree doubleCommaPat [TplI.s ",".toList]
      (P.toList ++ s14) = P.toList ++ t := by
    exact ⟨_, subFree_pre _ _ _ (hb doubleCommaPat (by simp)) s14⟩
  obtain ⟨s16, e16⟩ : ∃ t, subFree parenCommaPat [TplI.s "(".toList]
      (P.toList ++ s15) = P.toList ++ t := by
    exact ⟨_, subFree_pre _ _ _ (hb parenCommaPat (by simp)) s15⟩
  obtain ⟨s17, e17⟩ : ∃ t, subFree commaParenPat [TplI.s ")".toList]
      (P.toList ++ s16) = P.toList ++ t := by
    exact ⟨_, subFree_pre _ _ _ (hb commaParenPat (by simp)) s16⟩
  simp only [fbaAfterPrepend]
  rw [e1, e2, e3, e4, e5, e6, e7, e8, e9, e10, e11, e12, e13, e14, e15, e16, e17]
  rw [hsplit, List.filter_append, hkeep]
  cases hrf : (splitNl s17).filter keepLine with
  | nil =>
    rw [List.append_nil]
    exact isPrefB_isPrefix _ _ hc1
  | cons a as =>
    rw [hjoinP _ (by simp)]
    exact pipeAfterFilter_prefix P PL hsplit hflat hclaim
      (hb armaturePat (by simp)) halN hmode hfix hc2 _

theorem strMk_toList (l : List Char) : (String.mk l).toList = l := rfl

theorem fba_prefix_base : ∀ s, claimPre.toList <+: fbaAfterPrepend (fcBase.toList ++ s) :=
  fbaAfterPrepend_prefix fcBase fcBaseLines (fun _ => rfl) (by decide) (by decide)
    (by decide) (by decide) (by decide) (by decide) (by decide) (by decide)
    (by decide) (by decide)

theorem fba_prefix_math : ∀ s, claimPre.toList <+: fbaAfterPrepend (fcMath.toList ++ s) :=
  fbaAfterPrepend_prefix fcMath fcMathLines (fun _ => rfl) (by decide) (by decide)
    (by decide) (by decide) (by decide) (by decide) (by decide) (by decide)
    (by decide) (by decide)

theorem fba_prefix_vec : ∀ s, claimPre.toList <+: fbaAfterPrepend (fcVec.toList ++ s) :=
  fbaAfterPrepend_prefix fcVec fcVecLines (fun _ => rfl) (by decide) (by decide)
    (by decide) (by decide) (by decide) (by decide) (by decide) (by decide)
    (by decide) (by decide)

theorem fba_prefix_both : ∀ s, claimPre.toList <+: fbaAfterPrepend (fcBoth.toList ++ s) :=
  fbaAfterPrepend_prefix fcBoth fcBothLines (fun _ => rfl) (by decide) (by decide)
    (by decide) (by decide) (by decide) (by decide) (by decide) (by decide)
    (by decide) (by decide)

theorem forceClear_eq (nm nv : Bool) :
    (if (((if nm then ["import math"] else []) ++
        (if nv then ["from mathutils import Vector"] else [])).isEmpty) then
      fcBase.toList
    else
      rstripL fcBase.toList ++ '\n' ::
        joinNl (((if nm then ["import math"] else []) ++
          (if nv then ["from mathutils import Vector"] else [])).map String.toList)
        ++ "\n\n".toList) =
    (if nm then (if nv then fcBoth else fcMath) else
      if nv then fcVec else fcBase).toList := by
  cases nm <;> cases nv <;> decide

theorem fba_cases (nm nv : Bool) (x : List Char) :
    claimPre.toList <+: fbaAfterPrepend
      ((if nm then (if nv then fcBoth else fcMath) else
        if nv then fcVec else fcBase).toList ++ x) := by
  cases nm <;> cases nv <;>
    simp only [Bool.false_eq_true, if_true, if_false, ite_true, ite_false]
  · exact fba_prefix_base x
  · exact fba_prefix_vec x
  · exact fba_prefix_math x
  · exact fba_prefix_both x

theorem fba_startsWith_claimPre (c : String) :
    claimPre.toList <+: (fix_blender_api c).toList := by
  simp only [fix_blender_api, strMk_toList]
  rw [forceClear_eq]
  exact fba_cases _ _ _

/-! ## Operator-level helper lemmas -/

theorem generate_code_snd (p m : String) (mt : Nat) (cx : Complexity) (net : GenEnv) :
    (generate_code p m mt cx net).2 = [genUrl] := by
  cases net <;> simp only [generate_code] <;> split_ifs <;> rfl

theorem generate_code_fail_fst (p m : String) (mt : Nat) (cx : Complexity) :
    (generate_code p m mt cx .connError).1 = "" ∧
    (generate_code p m mt cx .timeout).1 = "" ∧
    (generate_code p m mt cx .reqError).1 = "" := by
  exact ⟨rfl, rfl, rfl⟩

theorem executeOp_no_requests (st : SceneState) (net : GenEnv)
    (v : String → Option String) (x : String → List String → ExecOutcome × List String)
    (h : st.prompt = "") (ra : Bool) :
    executeOp ra st net v x = ⟨.cancelled, [], [], st.lastCode, st.objects⟩ := by
  cases ra with
  | false => simp [executeOp]
  | true => simp [executeOp, h]

theorem executeOp_gen_empty (st : SceneState) (net : GenEnv)
    (v : String → Option String) (x : String → List String → ExecOutcome × List String)
    (h0 : ¬ st.prompt = "")
    (h1 : (generate_code st.prompt st.model st.maxTokens
      (assess_complexity st.prompt) net).1 = "") :
    executeOp true st net v x = ⟨.cancelled, [genUrl], [], st.lastCode, st.objects⟩ := by
  simp only [executeOp, Bool.not_true, Bool.false_eq_true, if_false, h0, h1]
  have hc : (pstripL "".toList).isEmpty = true := rfl
  simp [hc, generate_code_snd]
  intro hx
  exact absurd rfl hx

theorem executeOp_valid_some (st : SceneState) (net : GenEnv)
    (v : String → Option String) (x : String → List String → ExecOutcome × List String)
    (h0 : ¬ st.prompt = "")
    (h1 : ¬ (pstripL (generate_code st.prompt st.model st.maxTokens
      (assess_complexity st.prompt) net).1.toList).isEmpty = true)
    (e : String)
    (hv : v (fix_material_errors (fix_blender_api (generate_code st.prompt st.model
      st.maxTokens (assess_complexity st.prompt) net).1)) = some e) :
    executeOp true st net v x =
      ⟨.cancelled, [genUrl], [],
        "# SYNTAX ERROR:\n# " ++ e ++ "\n\n" ++
          fix_material_errors (fix_blender_api (generate_code st.prompt st.model
            st.maxTokens (assess_complexity st.prompt) net).1),
        st.objects⟩ := by
  simp only [executeOp, Bool.not_true, Bool.false_eq_true, if_false, h0, h1, hv,
    if_neg h0, if_neg h1, generate_code_snd]

theorem executeOp_exec_ok (st : SceneState) (net : GenEnv)
    (v : String → Option String) (x : String → List String → ExecOutcome × List String)
    (h0 : ¬ st.prompt = "")
    (h1 : ¬ (pstripL (generate_code st.prompt st.model st.maxTokens
      (assess_complexity st.prompt) net).1.toList).isEmpty = true)
    (hv : v (fix_material_errors (fix_blender_api (generate_code st.prompt st.model
      st.maxTokens (assess_complexity st.prompt) net).1)) = none)
    (hx : (x (fix_material_errors (fix_blender_api (generate_code st.prompt st.model
      st.maxTokens (assess_complexity st.prompt) net).1)) st.objects).1 = .ok) :
    executeOp true st net v x =
      ⟨.finished, [genUrl],
        [fix_material_errors (fix_blender_api (generate_code st.prompt st.model
          st.maxTokens (assess_complexity st.prompt) net).1)],
        fix_material_errors (fix_blender_api (generate_code st.prompt st.model
          st.maxTokens (assess_complexity st.prompt) net).1),
        (x (fix_material_errors (fix_blender_api (generate_code st.prompt st.model
          st.maxTokens (assess_complexity st.prompt) net).1)) st.objects).2⟩ := by
  simp only [executeOp, Bool.not_true, Bool.false_eq_true, if_false, h0, h1, hv, hx,
    if_neg h0, if_neg h1, generate_code_snd]

theorem executeOp_valid_none_head (st : SceneState) (net : GenEnv)
    (v : String → Option String) (x : String → List String → ExecOutcome × List String)
    (h0 : ¬ st.prompt = "")
    (h1 : ¬ (pstripL (generate_code st.prompt st.model st.maxTokens
      (assess_complexity st.prompt) net).1.toList).isEmpty = true)
    (hv : v (fix_material_errors (fix_blender_api (generate_code st.prompt st.model
      st.maxTokens (assess_complexity st.prompt) net).1)) = none) :
    (executeOp true st net v x).executed.head? =
      some (fix_material_errors (fix_blender_api (generate_code st.prompt st.model
        st.maxTokens (assess_complexity st.prompt) net).1)) := by
  simp only [executeOp, Bool.not_true, Bool.false_eq_true, if_false, h0, h1, hv,
    if_neg h0, if_neg h1]
  split <;> first
    | rfl
    | (split_ifs <;> first
        | (split <;> rfl)
        | rfl)

theorem executeOp_len_le_two (ra : Bool) (st : SceneState) (net : GenEnv)
    (v : String → Option String) (x : String → List String → ExecOutcome × List String) :
    (executeOp ra st net v x).executed.length ≤ 2 := by
  simp only [executeOp]
  split
  · simp
  split
  · simp
  split
  · simp
  split
  · simp
  split
  · simp
  · split_ifs <;> first
      | (split <;> simp)
      | simp
  · simp
  · simp

theorem executeOp_two_exec (ra : Bool) (st : SceneState) (net : GenEnv)
    (v : String → Option String) (x : String → List String → ExecOutcome × List String)
    (c1 c2 : String) (h : (executeOp ra st net v x).executed = [c1, c2]) :
    ∃ msg, (x c1 st.objects).1 = .attrError msg ∧
      (((hasSub msg "add_child" || hasSub msg "set_parent") = true ∧
          c2 = fix_parent_child_errors c1) ∨
       ((hasSub msg "add_child" || hasSub msg "set_parent") = false ∧
          (hasSub msg "world" || hasSub msg "BlendData") = true ∧
          c2 = fix_material_errors c1)) := by
  simp only [executeOp] at h
  split at h
  · simp at h
  split at h
  · simp at h
  split at h
  · simp at h
  split at h
  · simp at h
  split at h
  · simp at h
  · rename_i msg hmsg
    split_ifs at h with hc1 hc2
    · split at h <;>
        (simp only [List.cons.injEq, and_true] at h
         obtain ⟨rfl, rfl, -⟩ := h
         exact ⟨msg, hmsg, Or.inl ⟨by simpa using hc1, rfl⟩⟩)
    · split at h <;>
        (simp only [List.cons.injEq, and_true] at h
         obtain ⟨rfl, rfl, -⟩ := h
         exact ⟨msg, hmsg, Or.inr ⟨by simpa using hc1, by simpa using hc2, rfl⟩⟩)
    · simp at h
  · simp at h
  · simp at h

theorem executeOp_requests (ra : Bool) (st : SceneState) (net : GenEnv)
    (v : String → Option String) (x : String → List String → ExecOutcome × List String) :
    (executeOp ra st net v x).requests = [] ∨
      (executeOp ra st net v x).requests = [genUrl] := by
  simp only [executeOp]
  split
  · left; rfl
  split
  · left; rfl
  split
  · right; exact generate_code_snd _ _ _ _ _
  split
  · right; exact generate_code_snd _ _ _ _ _
  split
  · right; exact generate_code_snd _ _ _ _ _
  · split_ifs <;> first
      | (split <;> (right; exact generate_code_snd _ _ _ _ _))
      | (right; exact generate_code_snd _ _ _ _ _)
  · right; exact generate_code_snd _ _ _ _ _
  · right; exact generate_code_snd _ _ _ _ _

theorem executeOp_executed_forms (ra : Bool) (st : SceneState) (net : GenEnv)
    (v : String → Option String) (x : String → List String → ExecOutcome × List String)
    (e : String) (he : e ∈ (executeOp ra st net v x).executed) :
    ∃ g : String,
      e = fix_material_errors (fix_blender_api g) ∨
      e = fix_parent_child_errors (fix_material_errors (fix_blender_api g)) ∨
      e = fix_material_errors (fix_material_errors (fix_blender_api g)) := by
  simp only [executeOp] at he
  split at he
  · simp at he
  split at he
  · simp at he
  split at he
  · simp at he
  split at he
  · simp at he
  split at he
  · simp only [List.mem_singleton] at he
    exact ⟨_, Or.inl he⟩
  · split_ifs at he with hc1 hc2
    · split at he <;>
        (simp only [List.mem_cons, List.not_mem_nil, or_false] at he
         rcases he with he | he
         · exact ⟨_, Or.inl he⟩
         · exact ⟨_, Or.inr (Or.inl he)⟩)
    · split at he <;>
        (simp only [List.mem_cons, List.not_mem_nil, or_false] at he
         rcases he with he | he
         · exact ⟨_, Or.inl he⟩
         · exact ⟨_, Or.inr (Or.inr he)⟩)
    · simp only [List.mem_singleton] at he
      exact ⟨_, Or.inl he⟩
  · simp only [List.mem_singleton] at he
    exact ⟨_, Or.inl he⟩
  · simp only [List.mem_singleton] at he
    exact ⟨_, Or.inl he⟩

theorem claimPre_pre_subFree (re : RE) (tpl : Tpl) (y : List Char)
    (hb : blockedAll re claimPre.toList = true)
    (h : claimPre.toList <+: y) : claimPre.toList <+: subFree re tpl y := by
  obtain ⟨t, ht⟩ := h
  rw [← ht, subFree_pre re tpl _ hb t]
  exact List.prefix_append _ _

theorem fm_preserves_claimPre (y : String) (h : claimPre.toList <+: y.toList) :
    claimPre.toList <+: (fix_material_errors y).toList := by
  show claimPre.toList <+: (fix_material_errors y).data
  simp only [fix_material_errors, String.toList]
  refine claimPre_pre_subFree _ _ _ (by decide) ?_
  refine claimPre_pre_subFree _ _ _ (by decide) ?_
  refine claimPre_pre_subFree _ _ _ (by decide) ?_
  refine claimPre_pre_subFree _ _ _ (by decide) ?_
  refine claimPre_pre_subFree _ _ _ (by decide) ?_
  refine claimPre_pre_subFree _ _ _ (by decide) ?_
  refine claimPre_pre_subFree _ _ _ (by decide) ?_
  refine claimPre_pre_subFree _ _ _ (by decide) ?_
  refine claimPre_pre_subFree _ _ _ (by decide) ?_
  exact h

theorem fpc_preserves_claimPre (y : String) (h : claimPre.toList <+: y.toList) :
    claimPre.toList <+: (fix_parent_child_errors y).toList := by
  show claimPre.toList <+: (fix_parent_child_errors y).data
  simp only [fix_parent_child_errors, String.toList]
  refine claimPre_pre_subFree _ _ _ (by decide) ?_
  refine claimPre_pre_subFree _ _ _ (by decide) ?_
  exact h

theorem fba_eq_prep (c : String) :
    fix_blender_api c = ⟨fbaAfterPrepend (fbaPrep c)⟩ := rfl

theorem fbaAfterPrepend_as_front (cs : List Char) :
    fbaAfterPrepend cs = pipeAfterFilter (frontStages cs) := rfl

theorem autoLink_neutral_id (L : List (List Char)) (h : L.all alNeutral = true)
    (st : ALSt) : autoLinkStep st L = L := by
  have h2 := autoLink_neutral_append L h st []
  have h3 : autoLinkStep st [] = ([] : List (List Char)) := rfl
  rw [List.append_nil, h3, List.append_nil] at h2
  exact h2

theorem pipeAfterFilter_neutral (cs : List Char) (L : List (List Char))
    (hs : splitNl cs = L) (hn : L.all alNeutral = true) :
    pipeAfterFilter cs = pipeAfterAutoLink (joinNl L) := by
  simp only [pipeAfterFilter, hs, autoLink_neutral_id L hn]

/-- Evaluate `fix_blender_api` on a concrete input whose lines are all
neutral for the auto-link pass, from decidable equalities for the
front, the line split, and the tail of the pipeline. -/
theorem fba_eval (c : String) (F : List Char) (L : List (List Char)) (R : List Char)
    (h1 : frontStages (fbaPrep c) = F)
    (h2 : splitNl F = L) (h3 : L.all alNeutral = true)
    (h4 : pipeAfterAutoLink (joinNl L) = R) :
    fix_blender_api c = ⟨R⟩ := by
  rw [fba_eq_prep, fbaAfterPrepend_as_front, h1, pipeAfterFilter_neutral F L h2 h3, h4]

/-- The `AttributeError` retry path of the operator: validation passed,
the first `exec` raised an `AttributeError` whose message names
`add_child` or `set_parent`, and the re-execution of the
`fix_parent_child_errors` rewrite succeeded. -/
theorem executeOp_attr_retry (st : SceneState) (net : GenEnv)
    (v : String → Option String) (x : String → List String → ExecOutcome × List String)
    (msg : String)
    (h0 : ¬ st.prompt = "")
    (h1 : ¬ (pstripL (generate_code st.prompt st.model st.maxTokens
      (assess_complexity st.prompt) net).1.toList).isEmpty = true)
    (hv : v (fix_material_errors (fix_blender_api (generate_code st.prompt st.model
      st.maxTokens (assess_complexity st.prompt) net).1)) = none)
    (hx1 : (x (fix_material_errors (fix_blender_api (generate_code st.prompt st.model
      st.maxTokens (assess_complexity st.prompt) net).1)) st.objects).1 = .attrError msg)
    (hb : (hasSub msg "add_child" || hasSub msg "set_parent") = true)
    (hx2 : (x (fix_parent_child_errors (fix_material_errors (fix_blender_api
      (generate_code st.prompt st.model st.maxTokens (assess_complexity st.prompt)
        net).1)))
      (x (fix_material_errors (fix_blender_api (generate_code st.prompt st.model
        st.maxTokens (assess_complexity st.prompt) net).1)) st.objects).2).1 = .ok) :
    executeOp true st net v x =
      ⟨.finished, [genUrl],
        [fix_material_errors (fix_blender_api (generate_code st.prompt st.model
          st.maxTokens (assess_complexity st.prompt) net).1),
         fix_parent_child_errors (fix_material_errors (fix_blender_api (generate_code
          st.prompt st.model st.maxTokens (assess_complexity st.prompt) net).1))],
        fix_parent_child_errors (fix_material_errors (fix_blender_api (generate_code
          st.prompt st.model st.maxTokens (assess_complexity st.prompt) net).1)),
        (x (fix_parent_child_errors (fix_material_errors (fix_blender_api
          (generate_code st.prompt st.model st.maxTokens (assess_complexity st.prompt)
            net).1)))
          (x (fix_material_errors (fix_blender_api (generate_code st.prompt st.model
            st.maxTokens (assess_complexity st.prompt) net).1)) st.objects).2).2⟩ := by
  simp only [executeOp, Bool.not_true, Bool.false_eq_true, if_false, h0, h1, hv, hx1,
    hb, hx2, if_neg h0, if_neg h1, generate_code_snd, if_true]

/-! ## The claims -/

/-- Claim C1 (counterexample): when generation fails — here the
connection to the Ollama server raises — there is no fallback code
generator.  At the concrete fixture the operator cancels, executes
nothing, builds no geometry, and leaves the scene unchanged. -/
theorem C1_counterexample :
    executeOp true stFix .connError vNoneFix xOkFix =
      ⟨.cancelled, [genUrl], [], "", []⟩ := rfl

/-- Claim C1 (amended): when the prompt is non-empty and code
generation fails (it returns the empty string, as on a connection
error, a timeout, a request error, or an empty stream), the execute
operator returns CANCELLED after the single generate request, executes
nothing, and leaves the scene state unchanged: no fallback generator
exists. -/
theorem C1_amended (st : SceneState) (net : GenEnv)
    (v : String → Option String) (x : String → List String → ExecOutcome × List String)
    (h0 : ¬ st.prompt = "")
    (h1 : (generate_code st.prompt st.model st.maxTokens
      (assess_complexity st.prompt) net).1 = "") :
    executeOp true st net v x = ⟨.cancelled, [genUrl], [], st.lastCode, st.objects⟩ :=
  executeOp_gen_empty st net v x h0 h1

/-- Claim C1 witness: the amended claim at the concrete fixture with a
connection error. -/
theorem C1_amended_witness :
    (¬ stFix.prompt = "") ∧
    executeOp true stFix .connError vNoneFix xOkFix =
      ⟨.cancelled, [genUrl], [], stFix.lastCode, stFix.objects⟩ :=
  ⟨by decide, C1_amended stFix .connError vNoneFix xOkFix (by decide) rfl⟩

/-- Claim C2 (confirmed): when the prompt is non-empty and generation
succeeds, the code the operator works with is
`fix_material_errors (fix_blender_api generated)` — both repair passes
run before any execution.  If the validation oracle accepts, this
repaired code is the first string executed; if it reports an error,
the operator returns CANCELLED and executes nothing. -/
theorem C2_repair_before_execute (st : SceneState) (net : GenEnv)
    (v : String → Option String) (x : String → List String → ExecOutcome × List String)
    (h0 : ¬ st.prompt = "")
    (h1 : ¬ (pstripL (generate_code st.prompt st.model st.maxTokens
      (assess_complexity st.prompt) net).1.toList).isEmpty = true) :
    (v (fix_material_errors (fix_blender_api (generate_code st.prompt st.model
        st.maxTokens (assess_complexity st.prompt) net).1)) = none →
      (executeOp true st net v x).executed.head? =
        some (fix_material_errors (fix_blender_api (generate_code st.prompt st.model
          st.maxTokens (assess_complexity st.prompt) net).1))) ∧
    (∀ e, v (fix_material_errors (fix_blender_api (generate_code st.prompt st.model
        st.maxTokens (assess_complexity st.prompt) net).1)) = some e →
      (executeOp true st net v x).status = .cancelled ∧
      (executeOp true st net v x).executed = []) := by
  constructor
  · intro hv
    exact executeOp_valid_none_head st net v x h0 h1 hv
  · intro e hv
    rw [executeOp_valid_some st net v x h0 h1 e hv]
    exact ⟨rfl, rfl⟩

/-- Claim C2 witness: at the concrete fixture the first executed
string is the repaired generated code. -/
theorem C2_witness :
    (executeOp true stFix netOkFix vNoneFix xOkFix).executed.head? =
      some (fix_material_errors (fix_blender_api (generate_code stFix.prompt
        stFix.model stFix.maxTokens (assess_complexity stFix.prompt) netOkFix).1)) :=
  (C2_repair_before_execute stFix netOkFix vNoneFix xOkFix (by decide) (by decide)).1 rfl

/-- Claim C3 (confirmed): from the empty accumulator the streaming
loop accumulates exactly the concatenation of the response fields of
the lines up to and including the first done line, reports whether a
done line was hit, and leaves every later line unconsumed; empty and
unparsable lines contribute nothing. -/
theorem C3_streaming (ls : List StreamLine) :
    (streamLoop [] ls).1 = (responsesOf (takeThroughDone ls)).flatten ∧
    (streamLoop [] ls).2.1 = hasDoneB ls ∧
    (streamLoop [] ls).2.2 = dropThroughDone ls := by
  rw [streamLoop_spec]
  exact ⟨by simp, rfl, rfl⟩

/-- Claim C4 (counterexample): failure handling is not limited to
catching the exception: after an `AttributeError` mentioning
`add_child`, the operator rewrites the code with
`fix_parent_child_errors` and executes it a second time.  At the
concrete fixture two distinct code strings are executed in one
invocation. -/
theorem C4_counterexample :
    (executeOp true stFix netAttrFix vNoneFix xAttrFix).executed.length = 2 ∧
    (executeOp true stFix netAttrFix vNoneFix xAttrFix).executed.head? ≠
      ((executeOp true stFix netAttrFix vNoneFix xAttrFix).executed.drop 1).head? := by
  have hgen : (generate_code stFix.prompt stFix.model stFix.maxTokens
      (assess_complexity stFix.prompt) netAttrFix).1 = c4Gen := by decide
  have h1 : frontStages (fbaPrep c4Gen) = joinNl c4Lines := by decide
  have h2 : splitNl (joinNl c4Lines) = c4Lines := by decide
  have h3 : c4Lines.all alNeutral = true := by decide
  have h4 : pipeAfterAutoLink (joinNl c4Lines) = c4Rep.toList := by decide
  have hfba : fix_blender_api c4Gen = c4Rep :=
    fba_eval c4Gen (joinNl c4Lines) c4Lines c4Rep.toList h1 h2 h3 h4
  have hm : fix_material_errors c4Rep = c4Rep := by decide
  have hC : fix_material_errors (fix_blender_api (generate_code stFix.prompt stFix.model
      stFix.maxTokens (assess_complexity stFix.prompt) netAttrFix).1) = c4Rep := by
    rw [hgen, hfba]
    exact hm
  have hadd : hasSub c4Rep "add_child" = true := by decide
  have hpc : fix_parent_child_errors c4Rep = c4Rep2 := by decide
  have hadd2 : hasSub c4Rep2 "add_child" = false := by decide
  have hmsg : (hasSub "'Object' object has no attribute 'add_child'" "add_child"
      || hasSub "'Object' object has no attribute 'add_child'" "set_parent") = true := by
    decide
  have hx1 : (xAttrFix (fix_material_errors (fix_blender_api (generate_code stFix.prompt
      stFix.model stFix.maxTokens (assess_complexity stFix.prompt) netAttrFix).1))
      stFix.objects).1 = .attrError "'Object' object has no attribute 'add_child'" := by
    rw [hC]
    simp [xAttrFix, hadd]
  have hx2 : (xAttrFix (fix_parent_child_errors (fix_material_errors (fix_blender_api
      (generate_code stFix.prompt stFix.model stFix.maxTokens
        (assess_complexity stFix.prompt) netAttrFix).1)))
      (xAttrFix (fix_material_errors (fix_blender_api (generate_code stFix.prompt
        stFix.model stFix.maxTokens (assess_complexity stFix.prompt) netAttrFix).1))
        stFix.objects).2).1 = .ok := by
    rw [hC, hpc]
    simp [xAttrFix, hadd2]
  rw [executeOp_attr_retry stFix netAttrFix vNoneFix xAttrFix
    "'Object' object has no attribute 'add_child'" (by decide) (by decide) rfl hx1 hmsg hx2]
  refine ⟨rfl, ?_⟩
  rw [hC, hpc]
  decide

/-- Claim C4 (amended): within one invocation at most two code strings
are executed, and whenever two are executed the first raised an
`AttributeError` and the second is the first rewritten by
`fix_parent_child_errors` or by `fix_material_errors`: after an
execution error the generated code can be modified and executed a
second time, in exactly these retry cases. -/
theorem C4_amended (ra : Bool) (st : SceneState) (net : GenEnv)
    (v : String → Option String) (x : String → List String → ExecOutcome × List String) :
    (executeOp ra st net v x).executed.length ≤ 2 ∧
    ∀ c1 c2, (executeOp ra st net v x).executed = [c1, c2] →
      ∃ msg, (x c1 st.objects).1 = .attrError msg ∧
        (c2 = fix_parent_child_errors c1 ∨ c2 = fix_material_errors c1) := by
  refine ⟨executeOp_len_le_two ra st net v x, ?_⟩
  intro c1 c2 h
  obtain ⟨msg, hm, hd⟩ := executeOp_two_exec ra st net v x c1 c2 h
  exact ⟨msg, hm, hd.elim (fun hc => Or.inl hc.2) (fun hc => Or.inr hc.2.2)⟩

/-- Claim C5 (confirmed): every URL any modelled operation requests —
the connection test, code generation, and the execute operator — is
one of the two fixed local endpoints
`http://localhost:11434/api/tags` and
`http://localhost:11434/api/generate`. -/
theorem C5_fixed_endpoints (m : String) (tc : TCEnv) (p mo : String) (mt : Nat)
    (cx : Complexity) (net : GenEnv) (ra : Bool) (st : SceneState)
    (v : String → Option String) (x : String → List String → ExecOutcome × List String)
    (u : String) :
    (u ∈ (test_connection m tc).2 → u = tagsUrl ∨ u = genUrl) ∧
    (u ∈ (generate_code p mo mt cx net).2 → u = tagsUrl ∨ u = genUrl) ∧
    (u ∈ (executeOp ra st net v x).requests → u = tagsUrl ∨ u = genUrl) := by
  refine ⟨?_, ?_, ?_⟩
  · intro h
    cases tc <;> simp [test_connection] at h <;> tauto
  · intro h
    rw [generate_code_snd] at h
    simp at h
    exact Or.inr h
  · intro h
    rcases executeOp_requests ra st net v x with hr | hr <;> rw [hr] at h <;> simp at h
    exact Or.inr h

/-- Claim C6 (counterexample): the two repair passes do not commute:
on the concrete input `"bpy.data.world.add_child(x)"` applying
`fix_parent_child_errors` then `fix_material_errors` differs from the
opposite order. -/
theorem C6_counterexample :
    fix_material_errors (fix_parent_child_errors "bpy.data.world.add_child(x)") ≠
      fix_parent_child_errors (fix_material_errors "bpy.data.world.add_child(x)") := by
  decide

/-- Claim C6 (amended): each pass is a deterministic function of its
input string alone, but the passes are not order-independent: there is
a string on which `fix_parent_child_errors` and `fix_material_errors`
give different results depending on the order of application. -/
theorem C6_amended :
    ∃ s : String,
      fix_material_errors (fix_parent_child_errors s) ≠
        fix_parent_child_errors (fix_material_errors s) :=
  ⟨"bpy.data.world.add_child(x)", by decide⟩

/-- Claim C7 (counterexample): a successful execute invocation stores
the executed code in the scene's persistent last-code property: at the
concrete fixture the status is FINISHED and the stored last code
differs from what was there before. -/
theorem C7_counterexample :
    (executeOp true stFix netOkFix vNoneFix xOkFix).status = .finished ∧
    (executeOp true stFix netOkFix vNoneFix xOkFix).lastCode ≠ stFix.lastCode := by
  rw [executeOp_exec_ok stFix netOkFix vNoneFix xOkFix (by decide) (by decide) rfl rfl]
  refine ⟨rfl, ?_⟩
  intro hc
  have hc' : fix_material_errors (fix_blender_api (generate_code stFix.prompt stFix.model
      stFix.maxTokens (assess_complexity stFix.prompt) netOkFix).1) = stFix.lastCode := hc
  obtain ⟨t, ht⟩ := fm_preserves_claimPre _ (fba_startsWith_claimPre
    (generate_code stFix.prompt stFix.model stFix.maxTokens
      (assess_complexity stFix.prompt) netOkFix).1)
  rw [hc'] at ht
  have ht' : claimPre.toList ++ t = ([] : List Char) := ht
  exact absurd (List.append_eq_nil.mp ht').1 (by decide)

/-- Claim C7 (amended): the operator does persist data in scene state:
on a successful execution the repaired code is stored in the scene's
last-code property, and on a validation failure a syntax-error banner
followed by the repaired code is stored there. -/
theorem C7_amended (st : SceneState) (net : GenEnv)
    (v : String → Option String) (x : String → List String → ExecOutcome × List String)
    (h0 : ¬ st.prompt = "")
    (h1 : ¬ (pstripL (generate_code st.prompt st.model st.maxTokens
      (assess_complexity st.prompt) net).1.toList).isEmpty = true) :
    (v (fix_material_errors (fix_blender_api (generate_code st.prompt st.model
        st.maxTokens (assess_complexity st.prompt) net).1)) = none →
      (x (fix_material_errors (fix_blender_api (generate_code st.prompt st.model
        st.maxTokens (assess_complexity st.prompt) net).1)) st.objects).1 = .ok →
      (executeOp true st net v x).lastCode =
        fix_material_errors (fix_blender_api (generate_code st.prompt st.model
          st.maxTokens (assess_complexity st.prompt) net).1)) ∧
    (∀ e, v (fix_material_errors (fix_blender_api (generate_code st.prompt st.model
        st.maxTokens (assess_complexity st.prompt) net).1)) = some e →
      (executeOp true st net v x).lastCode =
        "# SYNTAX ERROR:\n# " ++ e ++ "\n\n" ++
          fix_material_errors (fix_blender_api (generate_code st.prompt st.model
            st.maxTokens (assess_complexity st.prompt) net).1)) := by
  constructor
  · intro hv hx
    rw [executeOp_exec_ok st net v x h0 h1 hv hx]
  · intro e hv
    rw [executeOp_valid_some st net v x h0 h1 e hv]

/-- Claim C7 witness: at the concrete fixture the scene's last-code
property ends up holding the repaired generated code. -/
theorem C7_witness :
    (executeOp true stFix netOkFix vNoneFix xOkFix).lastCode =
      fix_material_errors (fix_blender_api (generate_code stFix.prompt stFix.model
        stFix.maxTokens (assess_complexity stFix.prompt) netOkFix).1) :=
  (C7_amended stFix netOkFix vNoneFix xOkFix (by decide) (by decide)).1 rfl rfl

/-- Claim C8 (confirmed): every output of `fix_blender_api` begins
with the fixed preamble — `import bpy` followed by the loop removing
every object in `bpy.data.objects` — and hence every code string the
execute operator ever runs begins with that scene-clearing preamble,
whatever the prompt and the model produced. -/
theorem C8_clearing_preamble :
    (∀ c : String, claimPre.toList <+: (fix_blender_api c).toList) ∧
    (∀ (ra : Bool) (st : SceneState) (net : GenEnv)
      (v : String → Option String)
      (x : String → List String → ExecOutcome × List String)
      (e : String), e ∈ (executeOp ra st net v x).executed →
        claimPre.toList <+: e.toList) := by
  refine ⟨fba_startsWith_claimPre, ?_⟩
  intro ra st net v x e he
  obtain ⟨g, hg⟩ := executeOp_executed_forms ra st net v x e he
  rcases hg with h | h | h <;> rw [h]
  · exact fm_preserves_claimPre _ (fba_startsWith_claimPre g)
  · exact fpc_preserves_claimPre _ (fm_preserves_claimPre _ (fba_startsWith_claimPre g))
  · exact fm_preserves_claimPre _ (fm_preserves_claimPre _ (fba_startsWith_claimPre g))

/-- Claim C9 (confirmed): the output of `fix_syntax_errors` contains
at least as many closing as opening brackets of each kind, by count. -/
theorem C9_bracket_counts (code : String) :
    countC (fix_syntax_errors code).toList '(' ≤
      countC (fix_syntax_errors code).toList ')' ∧
    countC (fix_syntax_errors code).toList '[' ≤
      countC (fix_syntax_errors code).toList ']' ∧
    countC (fix_syntax_errors code).toList '{' ≤
      countC (fix_syntax_errors code).toList '}' := by
  simp only [fix_syntax_errors]
  generalize joinNl ((splitNl code.toList).map fixParenLine) = cs
  split_ifs <;>
    simp_all [countC, String.toList, List.count_append, List.count_cons,
      List.count_replicate] <;>
    omega

/-- Claim C10 (confirmed): with an empty prompt the execute operator
returns CANCELLED having made no request and executed nothing, and the
scene's objects and stored last code are unchanged. -/
theorem C10_empty_prompt (ra : Bool) (st : SceneState) (net : GenEnv)
    (v : String → Option String) (x : String → List String → ExecOutcome × List String)
    (h : st.prompt = "") :
    executeOp ra st net v x = ⟨.cancelled, [], [], st.lastCode, st.objects⟩ :=
  executeOp_no_requests st net v x h ra

/-- Claim C10 witness: the empty-prompt fixture. -/
theorem C10_witness :
    stEmptyFix.prompt = "" ∧
    executeOp true stEmptyFix netOkFix vNoneFix xOkFix =
      ⟨.cancelled, [], [], stEmptyFix.lastCode, stEmptyFix.objects⟩ :=
  ⟨rfl, C10_empty_prompt true stEmptyFix netOkFix vNoneFix xOkFix rfl⟩
